import Mathlib

/-!
# gosecret: a shallow embedding of the command-line client

The two Go source files (`main.go`, `secret_service.go`) are embedded as pure
functions with explicit state passing.

* Go `string` and `[]byte` are both finite byte sequences (`Str`); the
  conversions `[]byte(s)` and `string(b)` copy the bytes unchanged and are the
  identity here.
* A Go `error` is represented by its message (`GoError`); `fmt.Errorf("ctx: %v", e)`
  is concatenation of the context with the message of `e`.
* The secret-service daemon and the bus are external: they are an oracle
  (`Bus σ`) with an arbitrary state `σ`, one function per remote method, each
  returning its reply together with the next daemon state.
* Every remote call the client issues is appended to a log (`Wire.calls`), so
  that statements about which calls are issued, and in which order, can be made.
-/

namespace Gosecret

/-! ## Strings -/

/-- One byte. -/
abbrev Byte := Fin 256

/-- Go `string` / `[]byte`: a finite sequence of bytes. -/
abbrev Str := List Byte

/-- Message of a Go `error` value. -/
abbrev GoError := Str

/-- Bus object path (`dbus.ObjectPath`, a Go string type). -/
abbrev ObjectPath := Str

/-- Bytes of a source-code string literal (all literals in the source are ASCII). -/
def ascii (s : String) : Str := s.toList.map (fun c => Fin.ofNat c.toNat)

/-- Line feed, `'\n'`. -/
def LF : Byte := 10

/-- Carriage return, `'\r'`. -/
def CR : Byte := 13

/-- Go `strings.Join(elems, sep)`. -/
def stringsJoin : List Str → Str → Str
  | [], _ => []
  | [a], _ => a
  | a :: b :: rest, sep => a ++ sep ++ stringsJoin (b :: rest) sep

/-- Go `strings.HasPrefix(s, sub)`. -/
def startsWith : Str → Str → Bool
  | _, [] => true
  | [], _ :: _ => false
  | a :: s, b :: t => a == b && startsWith s t

/-- Go `strings.Contains(s, substr)`: `substr` occurs in `s` at some byte offset. -/
def stringsContains : Str → Str → Bool
  | [], sub => startsWith [] sub
  | a :: s, sub => startsWith (a :: s) sub || stringsContains s sub

/-! ## Reading the value from standard input (`main.go`, `readPassword`) -/

/-- Go `bufio.MaxScanTokenSize`: the largest buffer a default `bufio.Scanner` allocates. -/
def MaxScanTokenSize : Nat := 64 * 1024

/-- Go `bufio.ErrTooLong`. -/
def ErrTooLong : GoError := ascii "bufio.Scanner: token too long"

/-- Go `bufio` `dropCR`: drop one terminal carriage return from a line. -/
def dropCR (data : Str) : Str :=
  if data.getLast? = some CR then data.dropLast else data

/-- The loop `for scanner.Scan() { lines = append(lines, scanner.Text()) }` followed by
`scanner.Err()`, for a default `bufio.Scanner` (split function `bufio.ScanLines`, buffer
limit `MaxScanTokenSize`) over input that is read without an I/O error.

`cur` is the pending data of the current line, the second argument the input not yet
looked at.  A token is delivered at each newline and, for pending data, at end of input;
each token is passed through `dropCR`.  The scanner gives up with `ErrTooLong` when its
buffer is full (`MaxScanTokenSize` pending bytes) and holds no complete token. -/
def scanLines : Str → Str → Except GoError (List Str)
  | cur, [] =>
    if cur = [] then Except.ok []
    else if MaxScanTokenSize ≤ cur.length then Except.error ErrTooLong
    else Except.ok [dropCR cur]
  | cur, b :: rest =>
    if MaxScanTokenSize ≤ cur.length then Except.error ErrTooLong
    else if b = LF then
      match scanLines [] rest with
      | Except.ok lines => Except.ok (dropCR cur :: lines)
      | Except.error e => Except.error e
    else scanLines (cur ++ [b]) rest

/-- One write to standard output. -/
inductive Out where
  /-- Bytes written by `fmt.Print` / `fmt.Println`. -/
  | text (s : Str)
  /-- One call `fmt.Printf("%-30s %s\n", label, created.Format("2006-01-02 15:04:05"))`,
  recorded with its arguments (`created` in seconds since the epoch). -/
  | row (label : Str) (created : Int)
  deriving DecidableEq, Repr

/-- What the process is started with. -/
structure Env where
  /-- Go `os.Args`. -/
  args : List Str
  /-- Content of standard input. -/
  stdin : Str
  /-- Result of `term.IsTerminal(os.Stdin.Fd())`. -/
  stdinIsTerminal : Bool
  /-- Result of `term.IsTerminal(os.Stdout.Fd())`. -/
  stdoutIsTerminal : Bool
  /-- Result of `term.ReadPassword`, when it is called. -/
  termRead : Except GoError Str
  /-- Failure of `dbus.SessionBus()`, `none` when the connection is established. -/
  sessionBus : Option GoError

/-- Go `readPassword` in `main.go`.  Returns the value, the writes made to standard
output, and whether standard input was read. -/
def readPassword (env : Env) : Except GoError Str × List Out × Bool :=
  if env.stdinIsTerminal then
    match env.termRead with
    | Except.error err => (Except.error err, [Out.text (ascii "Password: "), Out.text [LF]], true)
    | Except.ok password => (Except.ok password, [Out.text (ascii "Password: "), Out.text [LF]], true)
  else
    match scanLines [] env.stdin with
    | Except.error err => (Except.error err, [], true)
    | Except.ok lines => (Except.ok (stringsJoin lines [LF]), [], true)

/-! ### The lines of an input, as the specification words them -/

/-- Lines of an input as the specification describes them: the runs of bytes between
newline characters, where a final newline terminates the last line rather than starting
a new one. -/
def specLines : Str → List Str
  | [] => []
  | b :: rest =>
    if b = LF then [] :: specLines rest
    else
      match specLines rest with
      | [] => [[b]]
      | l :: ls => (b :: l) :: ls

/-! ## The bus and the daemon behind it (`secret_service.go`) -/

/-- Dynamically typed value of a reply (`interface{}` / `dbus.Variant` in Go). -/
inductive Value where
  /-- A `string`. -/
  | str (s : Str)
  /-- A `[]byte`. -/
  | bytes (b : Str)
  /-- A `dbus.ObjectPath`. -/
  | path (p : ObjectPath)
  /-- A `uint64`. -/
  | u64 (n : Nat)
  /-- A `map[string]string`, in order of its entries. -/
  | dict (m : List (Str × Str))
  /-- A value of any other type. -/
  | other
  deriving DecidableEq, Repr

/-- Remote object `conn.Object(dest, path)`. -/
structure BusObject where
  /-- Bus name of the service. -/
  dest : Str
  /-- Path of the object. -/
  path : ObjectPath
  deriving DecidableEq, Repr

/-- The anonymous secret struct `(oayays)` that `SetSecret` sends. -/
structure SecretStruct where
  /-- Session path. -/
  Session : ObjectPath
  /-- Encryption parameters. -/
  Parameters : Str
  /-- Secret bytes. -/
  Value : Str
  /-- Content type. -/
  ContentType : Str
  deriving DecidableEq, Repr

/-- Outcome of `obj.Call(...)` followed by `call.Store(...)` into destinations of type `α`:
the call fails (`call.Err != nil`), or its body does not fit the destinations
(`Store` returns an error), or the destinations are filled. -/
inductive CallResult (α : Type) where
  /-- The call failed: `call.Err`. -/
  | failed (err : GoError)
  /-- The call returned and `Store` failed. -/
  | malformed (err : GoError)
  /-- The call returned and `Store` filled the destinations. -/
  | stored (a : α)
  deriving DecidableEq, Repr

/-- One remote call, with its receiver and arguments. -/
inductive Request where
  /-- `org.freedesktop.Secret.Service.OpenSession(algorithm, input)`. -/
  | OpenSession (obj : BusObject) (algorithm : Str) (input : Value)
  /-- `org.freedesktop.Secret.Service.SearchItems(attributes)`. -/
  | SearchItems (obj : BusObject) (attributes : List (Str × Str))
  /-- `org.freedesktop.Secret.Collection.CreateItem(properties, secret, replace)`. -/
  | CreateItem (obj : BusObject) (properties : List (Str × Value)) (secret : SecretStruct)
      (replace : Bool)
  /-- `org.freedesktop.Secret.Item.GetSecret(session)`. -/
  | GetSecret (obj : BusObject) (session : ObjectPath)
  /-- `org.freedesktop.Secret.Item.Delete()`. -/
  | Delete (obj : BusObject)
  /-- `obj.GetProperty(name)`. -/
  | GetProperty (obj : BusObject) (name : Str)
  deriving DecidableEq, Repr

/-- The daemon as seen through the bus: for each remote method, the reply in daemon state
`σ` and the daemon state after the call. -/
structure Bus (σ : Type) where
  /-- Reply to `OpenSession`, stored into `(output dbus.Variant, sessionPath dbus.ObjectPath)`. -/
  OpenSession : σ → BusObject → Str → Value → CallResult (Value × ObjectPath) × σ
  /-- Reply to `SearchItems`, stored into `(unlocked, locked []dbus.ObjectPath)`. -/
  SearchItems : σ → BusObject → List (Str × Str) →
    CallResult (List ObjectPath × List ObjectPath) × σ
  /-- Reply to `CreateItem`; only `call.Err` is looked at. -/
  CreateItem : σ → BusObject → List (Str × Value) → SecretStruct → Bool → Option GoError × σ
  /-- Reply to `Item.GetSecret`, stored into `secretStruct []interface{}`. -/
  GetSecret : σ → BusObject → ObjectPath → CallResult (List Value) × σ
  /-- Reply to `Item.Delete`; only `call.Err` is looked at. -/
  Delete : σ → BusObject → Option GoError × σ
  /-- Result of `obj.GetProperty(name)`. -/
  GetProperty : σ → BusObject → Str → Except GoError Value × σ

/-- State of the bus connection of one `SecretService`: the daemon behind it and the
calls issued so far. -/
structure Wire (σ : Type) where
  /-- Daemon state. -/
  daemon : σ
  /-- Calls issued so far, oldest first. -/
  calls : List Request

/-- Go constant `DBUS_SERVICE_NAME`. -/
def DBUS_SERVICE_NAME : Str := ascii "org.freedesktop.secrets"

/-- Go constant `DBUS_PATH_SECRETS`. -/
def DBUS_PATH_SECRETS : ObjectPath := ascii "/org/freedesktop/secrets"

/-- Attribute name of the logical key. -/
def ATTR_KEY : Str := ascii "gosecret-key"

/-- Attribute name of the application tag. -/
def ATTR_APPLICATION : Str := ascii "application"

/-- Application tag of this tool. -/
def APPLICATION : Str := ascii "gosecret"

/-- Property name of the item label. -/
def PROP_LABEL : Str := ascii "org.freedesktop.Secret.Item.Label"

/-- Property name of the item attributes. -/
def PROP_ATTRIBUTES : Str := ascii "org.freedesktop.Secret.Item.Attributes"

/-- Property name of the creation time. -/
def PROP_CREATED : Str := ascii "org.freedesktop.Secret.Item.Created"

/-- Property name of the modification time. -/
def PROP_MODIFIED : Str := ascii "org.freedesktop.Secret.Item.Modified"

/-- Issue `OpenSession` on `obj`. -/
def callOpenSession {σ : Type} (bus : Bus σ) (obj : BusObject) (algorithm : Str) (input : Value)
    (w : Wire σ) : CallResult (Value × ObjectPath) × Wire σ :=
  ((bus.OpenSession w.daemon obj algorithm input).1,
    { daemon := (bus.OpenSession w.daemon obj algorithm input).2,
      calls := w.calls ++ [Request.OpenSession obj algorithm input] })

/-- Issue `SearchItems` on `obj`. -/
def callSearchItems {σ : Type} (bus : Bus σ) (obj : BusObject) (attributes : List (Str × Str))
    (w : Wire σ) : CallResult (List ObjectPath × List ObjectPath) × Wire σ :=
  ((bus.SearchItems w.daemon obj attributes).1,
    { daemon := (bus.SearchItems w.daemon obj attributes).2,
      calls := w.calls ++ [Request.SearchItems obj attributes] })

/-- Issue `CreateItem` on `obj`. -/
def callCreateItem {σ : Type} (bus : Bus σ) (obj : BusObject) (properties : List (Str × Value))
    (secret : SecretStruct) (replace : Bool) (w : Wire σ) : Option GoError × Wire σ :=
  ((bus.CreateItem w.daemon obj properties secret replace).1,
    { daemon := (bus.CreateItem w.daemon obj properties secret replace).2,
      calls := w.calls ++ [Request.CreateItem obj properties secret replace] })

/-- Issue `Item.GetSecret` on `obj`. -/
def callGetSecret {σ : Type} (bus : Bus σ) (obj : BusObject) (session : ObjectPath)
    (w : Wire σ) : CallResult (List Value) × Wire σ :=
  ((bus.GetSecret w.daemon obj session).1,
    { daemon := (bus.GetSecret w.daemon obj session).2,
      calls := w.calls ++ [Request.GetSecret obj session] })

/-- Issue `Item.Delete` on `obj`. -/
def callDelete {σ : Type} (bus : Bus σ) (obj : BusObject) (w : Wire σ) :
    Option GoError × Wire σ :=
  ((bus.Delete w.daemon obj).1,
    { daemon := (bus.Delete w.daemon obj).2,
      calls := w.calls ++ [Request.Delete obj] })

/-- Issue `GetProperty(name)` on `obj`. -/
def callGetProperty {σ : Type} (bus : Bus σ) (obj : BusObject) (name : Str) (w : Wire σ) :
    Except GoError Value × Wire σ :=
  ((bus.GetProperty w.daemon obj name).1,
    { daemon := (bus.GetProperty w.daemon obj name).2,
      calls := w.calls ++ [Request.GetProperty obj name] })

/-! ## The client operations (`secret_service.go`) -/

/-- Go `SecretService.SetSecret`. -/
def SetSecret {σ : Type} (bus : Bus σ) (key secret : Str) (w : Wire σ) :
    Option GoError × Wire σ :=
  match callOpenSession bus ⟨DBUS_SERVICE_NAME, DBUS_PATH_SECRETS⟩ (ascii "plain")
      (Value.str []) w with
  | (CallResult.failed err, w1) => (some (ascii "failed to open session: " ++ err), w1)
  | (CallResult.malformed err, w1) =>
    (some (ascii "failed to parse session response: " ++ err), w1)
  | (CallResult.stored (_, sessionPath), w1) =>
    match callCreateItem bus
        ⟨DBUS_SERVICE_NAME, ascii "/org/freedesktop/secrets/aliases/default"⟩
        [(PROP_LABEL, Value.str key),
          (PROP_ATTRIBUTES, Value.dict [(ATTR_KEY, key), (ATTR_APPLICATION, APPLICATION)])]
        { Session := sessionPath, Parameters := [], Value := secret,
          ContentType := ascii "text/plain" }
        true w1 with
    | (some err, w2) => (some (ascii "failed to store secret: " ++ err), w2)
    | (none, w2) => (none, w2)

/-- The tail of Go `SecretService.GetSecret` and of the secret fetch in `getItemDetails`:
`len(secretStruct) >= 3` and `secretStruct[2].([]byte)`. -/
def secretData (secretStruct : List Value) : Option Str :=
  match secretStruct with
  | _ :: _ :: Value.bytes b :: _ => some b
  | _ => none

/-- Lines 121 to 152 of Go `SecretService.GetSecret`: open a session, call get-secret on
the selected item, extract the secret bytes. -/
def fetchSecret {σ : Type} (bus : Bus σ) (itemPath : ObjectPath) (w1 : Wire σ) :
    Except GoError Str × Wire σ :=
  match callOpenSession bus ⟨DBUS_SERVICE_NAME, DBUS_PATH_SECRETS⟩ (ascii "plain")
      (Value.str []) w1 with
  | (CallResult.failed err, w2) =>
    (Except.error (ascii "failed to open session: " ++ err), w2)
  | (CallResult.malformed err, w2) =>
    (Except.error (ascii "failed to parse session response: " ++ err), w2)
  | (CallResult.stored (_, sessionPath), w2) =>
    match callGetSecret bus ⟨DBUS_SERVICE_NAME, itemPath⟩ sessionPath w2 with
    | (CallResult.failed err, w3) =>
      (Except.error (ascii "failed to get secret: " ++ err), w3)
    | (CallResult.malformed err, w3) =>
      (Except.error (ascii "failed to parse secret response: " ++ err), w3)
    | (CallResult.stored secretStruct, w3) =>
      match secretData secretStruct with
      | some data => (Except.ok data, w3)
      | none => (Except.error (ascii "unexpected secret format"), w3)

/-- Go `SecretService.GetSecret`. -/
def GetSecret {σ : Type} (bus : Bus σ) (key : Str) (w : Wire σ) :
    Except GoError Str × Wire σ :=
  match callSearchItems bus ⟨DBUS_SERVICE_NAME, DBUS_PATH_SECRETS⟩
      [(ATTR_KEY, key), (ATTR_APPLICATION, APPLICATION)] w with
  | (CallResult.failed err, w1) => (Except.error (ascii "failed to search items: " ++ err), w1)
  | (CallResult.malformed err, w1) =>
    (Except.error (ascii "failed to parse search results: " ++ err), w1)
  | (CallResult.stored (unlocked, locked), w1) =>
    match unlocked, locked with
    | [], [] => (Except.ok [], w1)
    | u :: _, _ => fetchSecret bus u w1
    | [], l :: _ => fetchSecret bus l w1

/-- The loop `for _, itemPath := range allItems` of Go `SecretService.DeleteSecret`. -/
def deleteLoop {σ : Type} (bus : Bus σ) : List ObjectPath → Wire σ → Option GoError × Wire σ
  | [], w => (none, w)
  | itemPath :: rest, w =>
    match callDelete bus ⟨DBUS_SERVICE_NAME, itemPath⟩ w with
    | (some err, w1) => (some (ascii "failed to delete item: " ++ err), w1)
    | (none, w1) => deleteLoop bus rest w1

/-- Go `SecretService.DeleteSecret`. -/
def DeleteSecret {σ : Type} (bus : Bus σ) (key : Str) (w : Wire σ) :
    Option GoError × Wire σ :=
  match callSearchItems bus ⟨DBUS_SERVICE_NAME, DBUS_PATH_SECRETS⟩
      [(ATTR_KEY, key), (ATTR_APPLICATION, APPLICATION)] w with
  | (CallResult.failed err, w1) => (some (ascii "failed to search items: " ++ err), w1)
  | (CallResult.malformed err, w1) =>
    (some (ascii "failed to parse search results: " ++ err), w1)
  | (CallResult.stored (unlocked, locked), w1) =>
    match unlocked ++ locked with
    | [] => (some (ascii "no secret found with key: " ++ key), w1)
    | allItems => deleteLoop bus allItems w1

/-- Go `SecretItem`; the two times are kept as seconds since the epoch. -/
structure SecretItem where
  /-- Object path of the item. -/
  Path : ObjectPath
  /-- Label. -/
  Label : Str
  /-- Attributes. -/
  Attributes : List (Str × Str)
  /-- Secret value. -/
  Secret : Str
  /-- Creation time, `time.Unix(int64(created), 0)`. -/
  Created : Int
  /-- Modification time, `time.Unix(int64(modified), 0)`. -/
  Modified : Int
  deriving DecidableEq, Repr

/-- Result of running code that may panic. -/
inductive Run (α : Type) where
  /-- The code returned. -/
  | done (a : α)
  /-- The code panicked (a failed type assertion). -/
  | panic
  deriving DecidableEq, Repr

/-- Go conversion `int64(x)` of a `uint64`. -/
def toInt64 (n : Nat) : Int :=
  if n % 2 ^ 64 < 2 ^ 63 then ((n % 2 ^ 64 : Nat) : Int) else ((n % 2 ^ 64 : Nat) : Int) - 2 ^ 64

/-- The secret fetch at the end of Go `getItemDetails` (lines 272 to 281): a failed call,
a failed `Store` or an unexpected shape leave `secret` empty. -/
def detailSecret {σ : Type} (bus : Bus σ) (itemObj : BusObject) (sessionPath : ObjectPath)
    (w : Wire σ) : Str × Wire σ :=
  match callGetSecret bus itemObj sessionPath w with
  | (CallResult.stored secretStruct, w1) =>
    match secretData secretStruct with
    | some data => (data, w1)
    | none => ([], w1)
  | (_, w1) => ([], w1)

/-- Go `SecretService.getItemDetails`.  A property whose value has not the asserted type
makes the unchecked type assertion (`.Value().(string)` and the like) panic. -/
def getItemDetails {σ : Type} (bus : Bus σ) (itemPath sessionPath : ObjectPath) (w : Wire σ) :
    Run (Except GoError SecretItem) × Wire σ :=
  match callGetProperty bus ⟨DBUS_SERVICE_NAME, itemPath⟩ PROP_LABEL w with
  | (Except.error err, w1) => (Run.done (Except.error err), w1)
  | (Except.ok (Value.str label), w1) =>
    match callGetProperty bus ⟨DBUS_SERVICE_NAME, itemPath⟩ PROP_ATTRIBUTES w1 with
    | (Except.error err, w2) => (Run.done (Except.error err), w2)
    | (Except.ok (Value.dict attributes), w2) =>
      match callGetProperty bus ⟨DBUS_SERVICE_NAME, itemPath⟩ PROP_CREATED w2 with
      | (Except.error err, w3) => (Run.done (Except.error err), w3)
      | (Except.ok (Value.u64 created), w3) =>
        match callGetProperty bus ⟨DBUS_SERVICE_NAME, itemPath⟩ PROP_MODIFIED w3 with
        | (Except.error err, w4) => (Run.done (Except.error err), w4)
        | (Except.ok (Value.u64 modified), w4) =>
          (Run.done (Except.ok
              { Path := itemPath, Label := label, Attributes := attributes,
                Secret := (detailSecret bus ⟨DBUS_SERVICE_NAME, itemPath⟩ sessionPath w4).1,
                Created := toInt64 created, Modified := toInt64 modified }),
            (detailSecret bus ⟨DBUS_SERVICE_NAME, itemPath⟩ sessionPath w4).2)
        | (Except.ok _, w4) => (Run.panic, w4)
      | (Except.ok _, w3) => (Run.panic, w3)
    | (Except.ok _, w2) => (Run.panic, w2)
  | (Except.ok _, w1) => (Run.panic, w1)

/-- Go `SecretService.printSimpleItem`: the write it makes. -/
def printSimpleItem (item : SecretItem) : Out := Out.row item.Label item.Created

/-- The loop `for _, itemPath := range allItems` of Go `SecretService.ListSecrets`; `out`
is standard output so far. -/
def listLoop {σ : Type} (bus : Bus σ) (pattern : Str) (sessionPath : ObjectPath) :
    List ObjectPath → Wire σ → List Out → Run Unit × Wire σ × List Out
  | [], w, out => (Run.done (), w, out)
  | itemPath :: rest, w, out =>
    match getItemDetails bus itemPath sessionPath w with
    | (Run.panic, w1) => (Run.panic, w1, out)
    | (Run.done (Except.error _), w1) => listLoop bus pattern sessionPath rest w1 out
    | (Run.done (Except.ok item), w1) =>
      if pattern ≠ [] ∧ stringsContains item.Label pattern = false then
        listLoop bus pattern sessionPath rest w1 out
      else listLoop bus pattern sessionPath rest w1 (out ++ [printSimpleItem item])

/-- Go `SecretService.ListSecrets`; `out` is standard output so far. -/
def ListSecrets {σ : Type} (bus : Bus σ) (pattern : Str) (w : Wire σ) (out : List Out) :
    Run (Option GoError) × Wire σ × List Out :=
  match callSearchItems bus ⟨DBUS_SERVICE_NAME, DBUS_PATH_SECRETS⟩
      [(ATTR_APPLICATION, APPLICATION)] w with
  | (CallResult.failed err, w1) =>
    (Run.done (some (ascii "failed to search items: " ++ err)), w1, out)
  | (CallResult.malformed err, w1) =>
    (Run.done (some (ascii "failed to parse search results: " ++ err)), w1, out)
  | (CallResult.stored (unlocked, locked), w1) =>
    match unlocked ++ locked with
    | [] => (Run.done none, w1, out ++ [Out.text (ascii "No secrets found.\n")])
    | allItems =>
      match callOpenSession bus ⟨DBUS_SERVICE_NAME, DBUS_PATH_SECRETS⟩ (ascii "plain")
          (Value.str []) w1 with
      | (CallResult.failed err, w2) =>
        (Run.done (some (ascii "failed to open session: " ++ err)), w2, out)
      | (CallResult.malformed err, w2) =>
        (Run.done (some (ascii "failed to parse session response: " ++ err)), w2, out)
      | (CallResult.stored (_, sessionPath), w2) =>
        match listLoop bus pattern sessionPath allItems w2 out with
        | (Run.panic, w3, out3) => (Run.panic, w3, out3)
        | (Run.done _, w3, out3) => (Run.done none, w3, out3)

/-! ## The command dispatcher (`main.go`) -/

/-- The bus connection of the process. -/
inductive Conn where
  /-- No connection has been established. -/
  | absent
  /-- The connection is established and open. -/
  | opened
  /-- The connection was closed by `Close`. -/
  | closed
  deriving DecidableEq, Repr

/-- One write to standard error. -/
inductive ErrOut where
  /-- The text printed by `usage()`. -/
  | usage
  /-- `fmt.Fprintf(os.Stderr, "%s: %v\n", os.Args[0], err)`. -/
  | message (prog : Str) (err : GoError)
  /-- The report of the Go runtime for an unrecovered panic. -/
  | panicReport
  deriving DecidableEq, Repr

/-- State of the running process. -/
structure Proc (σ : Type) where
  /-- The daemon and the calls issued to it. -/
  wire : Wire σ
  /-- The bus connection. -/
  conn : Conn
  /-- Writes to standard output so far. -/
  stdout : List Out
  /-- Writes to standard error so far. -/
  stderr : List ErrOut
  /-- Whether standard input has been read. -/
  stdinRead : Bool

/-- How an action function stops. -/
inductive Ctl where
  /-- It returns `err` to `main`; deferred calls have run. -/
  | ret (err : Option GoError)
  /-- It calls `os.Exit(code)`: the process ends at once, deferred calls do not run. -/
  | exit (code : Nat)
  /-- It panics; deferred calls have run. -/
  | panic
  deriving DecidableEq, Repr

/-- Go `NewSecretService`. -/
def NewSecretService {σ : Type} (env : Env) (p : Proc σ) : Option GoError × Proc σ :=
  match env.sessionBus with
  | some err => (some (ascii "failed to connect to session bus: " ++ err), p)
  | none => (none, { p with conn := Conn.opened })

/-- Go `SecretService.Close`. -/
def Close {σ : Type} (p : Proc σ) : Proc σ :=
  match p.conn with
  | Conn.absent => p
  | _ => { p with conn := Conn.closed }

/-- Go `actionSet`. -/
def actionSet {σ : Type} (env : Env) (bus : Bus σ) (args : List Str) (p : Proc σ) :
    Ctl × Proc σ :=
  match args with
  | [] => (Ctl.ret (some (ascii "must specify a key")), p)
  | [key] =>
    match readPassword env with
    | (Except.error err, out, rd) =>
      (Ctl.ret (some (ascii "couldn't read value: " ++ err)),
        { p with stdout := p.stdout ++ out, stdinRead := p.stdinRead || rd })
    | (Except.ok value, out, rd) =>
      match NewSecretService env
          { p with stdout := p.stdout ++ out, stdinRead := p.stdinRead || rd } with
      | (some err, p1) => (Ctl.ret (some err), p1)
      | (none, p1) =>
        (Ctl.ret (SetSecret bus key value p1.wire).1,
          Close { p1 with wire := (SetSecret bus key value p1.wire).2 })
  | key :: v :: more =>
    match NewSecretService env p with
    | (some err, p1) => (Ctl.ret (some err), p1)
    | (none, p1) =>
      (Ctl.ret (SetSecret bus key (stringsJoin (v :: more) (ascii " ")) p1.wire).1,
        Close { p1 with
          wire := (SetSecret bus key (stringsJoin (v :: more) (ascii " ")) p1.wire).2 })

/-- Go `actionGet`. -/
def actionGet {σ : Type} (env : Env) (bus : Bus σ) (args : List Str) (p : Proc σ) :
    Ctl × Proc σ :=
  match args with
  | [key] =>
    match NewSecretService env p with
    | (some err, p1) => (Ctl.ret (some err), p1)
    | (none, p1) =>
      match GetSecret bus key p1.wire with
      | (Except.error err, w) => (Ctl.ret (some err), Close { p1 with wire := w })
      | (Except.ok secret, w) =>
        if secret = [] then (Ctl.exit 1, { p1 with wire := w })
        else
          (Ctl.ret none,
            Close { p1 with
              wire := w
              stdout := p1.stdout ++ [Out.text secret] ++
                (if env.stdoutIsTerminal then [Out.text [LF]] else []) })
  | _ => (Ctl.ret (some (ascii "must specify exactly one key")), p)

/-- Go `actionDelete`. -/
def actionDelete {σ : Type} (env : Env) (bus : Bus σ) (args : List Str) (p : Proc σ) :
    Ctl × Proc σ :=
  match args with
  | [key] =>
    match NewSecretService env p with
    | (some err, p1) => (Ctl.ret (some err), p1)
    | (none, p1) =>
      (Ctl.ret (DeleteSecret bus key p1.wire).1,
        Close { p1 with wire := (DeleteSecret bus key p1.wire).2 })
  | _ => (Ctl.ret (some (ascii "must specify exactly one key")), p)

/-- Go `actionList`. -/
def actionList {σ : Type} (env : Env) (bus : Bus σ) (args : List Str) (p : Proc σ) :
    Ctl × Proc σ :=
  match NewSecretService env p with
  | (some err, p1) => (Ctl.ret (some err), p1)
  | (none, p1) =>
    match ListSecrets bus (args.headD []) p1.wire p1.stdout with
    | (Run.panic, w, out) => (Ctl.panic, Close { p1 with wire := w, stdout := out })
    | (Run.done err, w, out) => (Ctl.ret err, Close { p1 with wire := w, stdout := out })

/-- What `main` does with the outcome of an action, and the exit status of the process:
an error is printed and the status is 1, `os.Exit(code)` gives `code`, an unrecovered
panic ends the process with status 2, a normal return gives 0. -/
def finish {σ : Type} (prog : Str) (r : Ctl × Proc σ) : Nat × Proc σ :=
  match r with
  | (Ctl.ret none, p) => (0, p)
  | (Ctl.ret (some err), p) => (1, { p with stderr := p.stderr ++ [ErrOut.message prog err] })
  | (Ctl.exit code, p) => (code, p)
  | (Ctl.panic, p) => (2, { p with stderr := p.stderr ++ [ErrOut.panicReport] })

/-- Go `main`: the exit status and the final state of the process. -/
def main {σ : Type} (env : Env) (bus : Bus σ) (p : Proc σ) : Nat × Proc σ :=
  match env.args with
  | prog :: command :: args =>
    if command = ascii "set" ∨ command = ascii "store" then
      finish prog (actionSet env bus args p)
    else if command = ascii "get" ∨ command = ascii "lookup" then
      finish prog (actionGet env bus args p)
    else if command = ascii "delete" ∨ command = ascii "clear" then
      finish prog (actionDelete env bus args p)
    else if command = ascii "list" then
      finish prog (actionList env bus args p)
    else (2, { p with stderr := p.stderr ++ [ErrOut.usage] })
  | _ => (2, { p with stderr := p.stderr ++ [ErrOut.usage] })

/-- The process before `main` starts, talking to a daemon in state `d`. -/
def start {σ : Type} (d : σ) : Proc σ :=
  { wire := { daemon := d, calls := [] }, conn := Conn.absent, stdout := [], stderr := [],
    stdinRead := false }

/-! ## A model of the daemon

A store of items in numbered slots.  The item in slot `i` has object path `itemPath i`;
a deleted item leaves its slot empty.  `SearchItems` returns, in slot order, the items
whose attributes include the searched ones, the unlocked ones apart from the locked ones.
`CreateItem` with the replace flag stores the item under its attributes: the first item
that a search for the new attributes finds is overwritten, and without such an item the
new one is added at the end.  A stored item is unlocked.  The secret of a locked item is
not given out.  In front of the daemon stands the bus library, which refuses to send a
string that is not valid UTF-8 or that holds a zero byte. -/

/-- One item held by the daemon. -/
structure StoredItem where
  /-- Label. -/
  label : Str
  /-- Attributes, a map from names to values. -/
  attributes : List (Str × Str)
  /-- Secret bytes. -/
  secret : Str
  /-- Whether the item is locked. -/
  locked : Bool
  /-- Creation time. -/
  created : Nat
  /-- Modification time. -/
  modified : Nat
  deriving DecidableEq, Repr

/-- State of the daemon. -/
structure Daemon where
  /-- The slots of the store. -/
  slots : List (Option StoredItem)
  /-- Number of sessions opened so far. -/
  sessions : Nat
  /-- The time the daemon stamps items with. -/
  clock : Nat
  deriving DecidableEq, Repr

/-- Path under which the items of the default collection live. -/
def ITEM_ROOT : ObjectPath := ascii "/org/freedesktop/secrets/collection/default/i"

/-- Object path of the item in slot `i`. -/
def itemPath (i : Nat) : ObjectPath := ITEM_ROOT ++ List.replicate i (49 : Byte)

/-- Slot that an object path names, if it is the path of an item. -/
def slotOf (path : ObjectPath) : Option Nat :=
  if path.take ITEM_ROOT.length = ITEM_ROOT then some (path.length - ITEM_ROOT.length) else none

/-- Object path of the `n`-th session. -/
def sessionPathOf (n : Nat) : ObjectPath :=
  ascii "/org/freedesktop/secrets/session/s" ++ List.replicate n (49 : Byte)

/-- Value of attribute `name` in an attribute map. -/
def lookupAttr : List (Str × Str) → Str → Option Str
  | [], _ => none
  | (k, v) :: rest, name => if k = name then some v else lookupAttr rest name

/-- Whether the attributes `stored` include every searched attribute. -/
def includesAttrs (stored searched : List (Str × Str)) : Bool :=
  searched.all (fun kv => decide (lookupAttr stored kv.1 = some kv.2))

/-- Search of the slots from slot number `i` on: the paths of the unlocked and of the
locked items whose attributes include the searched ones. -/
def searchSlots (searched : List (Str × Str)) :
    Nat → List (Option StoredItem) → List ObjectPath × List ObjectPath
  | _, [] => ([], [])
  | i, none :: rest => searchSlots searched (i + 1) rest
  | i, some item :: rest =>
    if includesAttrs item.attributes searched then
      if item.locked then
        ((searchSlots searched (i + 1) rest).1, itemPath i :: (searchSlots searched (i + 1) rest).2)
      else
        (itemPath i :: (searchSlots searched (i + 1) rest).1, (searchSlots searched (i + 1) rest).2)
    else searchSlots searched (i + 1) rest

/-- Store an item with the replace flag set: overwrite the first item found under the
attributes, or add the item at the end. -/
def replaceItem (label : Str) (attributes : List (Str × Str)) (secret : Str) (now : Nat) :
    List (Option StoredItem) → List (Option StoredItem)
  | [] =>
    [some { label := label, attributes := attributes, secret := secret, locked := false,
            created := now, modified := now }]
  | none :: rest => none :: replaceItem label attributes secret now rest
  | some item :: rest =>
    if includesAttrs item.attributes attributes then
      some { label := label, attributes := attributes, secret := secret, locked := false,
             created := item.created, modified := now } :: rest
    else some item :: replaceItem label attributes secret now rest

/-- The string property `name` of a property set. -/
def propStr : List (Str × Value) → Str → Str
  | [], _ => []
  | (k, Value.str s) :: rest, name => if k = name then s else propStr rest name
  | (k, _) :: rest, name => if k = name then [] else propStr rest name

/-- The attribute-map property `name` of a property set. -/
def propDict : List (Str × Value) → Str → List (Str × Str)
  | [], _ => []
  | (k, Value.dict m) :: rest, name => if k = name then m else propDict rest name
  | (k, _) :: rest, name => if k = name then [] else propDict rest name

/-- The item in slot `i`, if the slot exists and is not empty. -/
def slotAt : List (Option StoredItem) → Nat → Option StoredItem
  | [], _ => none
  | s :: _, 0 => s
  | _ :: rest, i + 1 => slotAt rest i

/-- The item an object path names. -/
def itemAt (d : Daemon) (path : ObjectPath) : Option StoredItem :=
  match slotOf path with
  | none => none
  | some i => slotAt d.slots i

/-- Error of a call on an object that does not exist. -/
def NO_SUCH_OBJECT : GoError := ascii "org.freedesktop.Secret.Error.NoSuchObject"

/-- Error of a secret request on a locked item. -/
def IS_LOCKED : GoError := ascii "org.freedesktop.Secret.Error.IsLocked"

/-- Go `utf8.ValidString` as a scan over the bytes: `pending` continuation bytes of the
current code point are still expected, the next of them within `lo` .. `hi`.  A leading
byte sets the number of continuation bytes and the range of the first of them (the
ranges exclude over-long forms, surrogates and code points above U+10FFFF); every further
continuation byte is within 0x80 .. 0xBF. -/
def utf8Scan : Nat → Nat → Nat → Str → Bool
  | 0, _, _, [] => true
  | _ + 1, _, _, [] => false
  | 0, _, _, b :: rest =>
    if b.val < 0x80 then utf8Scan 0 0 0 rest
    else if 0xC2 ≤ b.val ∧ b.val ≤ 0xDF then utf8Scan 1 0x80 0xBF rest
    else if b.val = 0xE0 then utf8Scan 2 0xA0 0xBF rest
    else if b.val = 0xED then utf8Scan 2 0x80 0x9F rest
    else if 0xE1 ≤ b.val ∧ b.val ≤ 0xEF then utf8Scan 2 0x80 0xBF rest
    else if b.val = 0xF0 then utf8Scan 3 0x90 0xBF rest
    else if 0xF1 ≤ b.val ∧ b.val ≤ 0xF3 then utf8Scan 3 0x80 0xBF rest
    else if b.val = 0xF4 then utf8Scan 3 0x80 0x8F rest
    else false
  | n + 1, lo, hi, b :: rest =>
    if lo ≤ b.val ∧ b.val ≤ hi then utf8Scan n 0x80 0xBF rest else false

/-- Go `utf8.ValidString(s)`. -/
def validUTF8 (s : Str) : Bool := utf8Scan 0 0 0 s

/-- Error of the bus library for a string that is not valid UTF-8. -/
def WIRE_NOT_UTF8 : GoError :=
  ascii "dbus: wire format error: input has a not-utf8 char in string"

/-- Error of the bus library for a string that holds a zero byte. -/
def WIRE_NULL_CHAR : GoError :=
  ascii "dbus: wire format error: input has a null char(" ++ [39] ++ ascii "\\x00" ++ [39] ++
    ascii ") in string"

/-- The check the bus library makes on a string argument before it puts the call on the
wire: a string must be valid UTF-8 and hold no zero byte.  A call with a string that fails
the check is not sent; it returns with this error. -/
def wireError (s : Str) : Option GoError :=
  if validUTF8 s = false then some WIRE_NOT_UTF8
  else if (0 : Byte) ∈ s then some WIRE_NULL_CHAR
  else none

/-- The first error of the string arguments of a call, if one fails the check. -/
def wireErrors : List Str → Option GoError
  | [] => none
  | s :: rest =>
    match wireError s with
    | some err => some err
    | none => wireErrors rest

/-- The strings of an attribute map: its names and values. -/
def attrStrings : List (Str × Str) → List Str
  | [] => []
  | (k, v) :: rest => k :: v :: attrStrings rest

/-- The strings a dynamically typed argument holds (byte arrays are not strings). -/
def valueStrings : Value → List Str
  | Value.str s => [s]
  | Value.dict m => attrStrings m
  | _ => []

/-- The strings of a property set: the property names and the strings of their values. -/
def propStrings : List (Str × Value) → List Str
  | [] => []
  | (k, v) :: rest => k :: (valueStrings v ++ propStrings rest)

/-- The slots after `CreateItem(properties, secret, replace)`. -/
def createItem (d : Daemon) (properties : List (Str × Value)) (secret : SecretStruct)
    (replace : Bool) : List (Option StoredItem) :=
  if replace then
    replaceItem (propStr properties PROP_LABEL) (propDict properties PROP_ATTRIBUTES)
      secret.Value d.clock d.slots
  else
    d.slots ++
      [some { label := propStr properties PROP_LABEL,
              attributes := propDict properties PROP_ATTRIBUTES,
              secret := secret.Value, locked := false,
              created := d.clock, modified := d.clock }]

/-- The daemon model as a bus: the bus library in front of the daemon.  A call whose
string arguments do not pass the check of the bus library fails without reaching the
daemon; the secret value is a byte array and passes unchecked. -/
def daemonBus : Bus Daemon where
  OpenSession := fun d _ algorithm input =>
    match wireErrors (algorithm :: valueStrings input) with
    | some err => (CallResult.failed err, d)
    | none =>
      (CallResult.stored (Value.str [], sessionPathOf d.sessions),
        { d with sessions := d.sessions + 1 })
  SearchItems := fun d _ searched =>
    match wireErrors (attrStrings searched) with
    | some err => (CallResult.failed err, d)
    | none => (CallResult.stored (searchSlots searched 0 d.slots), d)
  CreateItem := fun d _ properties secret replace =>
    match wireErrors (propStrings properties ++ [secret.ContentType]) with
    | some err => (some err, d)
    | none => (none, { d with slots := createItem d properties secret replace })
  GetSecret := fun d obj session =>
    match itemAt d obj.path with
    | none => (CallResult.failed NO_SUCH_OBJECT, d)
    | some item =>
      if item.locked then (CallResult.failed IS_LOCKED, d)
      else
        (CallResult.stored
          [Value.path session, Value.bytes [], Value.bytes item.secret,
            Value.str (ascii "text/plain")], d)
  Delete := fun d obj =>
    match slotOf obj.path with
    | none => (some NO_SUCH_OBJECT, d)
    | some i =>
      match slotAt d.slots i with
      | none => (some NO_SUCH_OBJECT, d)
      | some _ => (none, { d with slots := d.slots.set i none })
  GetProperty := fun d obj name =>
    match wireErrors [name] with
    | some err => (Except.error err, d)
    | none =>
      match itemAt d obj.path with
      | none => (Except.error NO_SUCH_OBJECT, d)
      | some item =>
        if name = PROP_LABEL then (Except.ok (Value.str item.label), d)
        else if name = PROP_ATTRIBUTES then (Except.ok (Value.dict item.attributes), d)
        else if name = PROP_CREATED then (Except.ok (Value.u64 item.created), d)
        else if name = PROP_MODIFIED then (Except.ok (Value.u64 item.modified), d)
        else (Except.error (ascii "org.freedesktop.DBus.Error.UnknownProperty"), d)

/-- The daemon with an empty store. -/
def emptyDaemon : Daemon := { slots := [], sessions := 0, clock := 0 }

/-- An item as this tool creates it for `key`. -/
def ownItem (key secret : Str) (locked : Bool) : StoredItem :=
  { label := key, attributes := [(ATTR_KEY, key), (ATTR_APPLICATION, APPLICATION)],
    secret := secret, locked := locked, created := 0, modified := 0 }

/-! ## Auxiliary definitions used in the statements -/

deriving instance DecidableEq for Except

/-- The lines of `cur ++ input`, given the lines of `input`, when `cur` holds no newline. -/
def joinPending (cur : Str) : List Str → List Str
  | [] => if cur = [] then [] else [cur]
  | l :: ls => (cur ++ l) :: ls

/-- The replies the daemon gives when `Delete` is called on each path in turn, starting
in daemon state `d`. -/
def deleteReplies {σ : Type} (bus : Bus σ) : List ObjectPath → σ → List (Option GoError)
  | [], _ => []
  | itemPath :: rest, d =>
    (bus.Delete d ⟨DBUS_SERVICE_NAME, itemPath⟩).1 ::
      deleteReplies bus rest (bus.Delete d ⟨DBUS_SERVICE_NAME, itemPath⟩).2

/-- The outcomes of `getItemDetails` when it is called on each path in turn, starting from
connection state `w`. -/
def detailResults {σ : Type} (bus : Bus σ) (sessionPath : ObjectPath) :
    List ObjectPath → Wire σ → List (Run (Except GoError SecretItem))
  | [], _ => []
  | itemPath :: rest, w =>
    (getItemDetails bus itemPath sessionPath w).1 ::
      detailResults bus sessionPath rest (getItemDetails bus itemPath sessionPath w).2

/-- The verbs `main` dispatches on. -/
def VERBS : List Str :=
  [ascii "set", ascii "store", ascii "get", ascii "lookup", ascii "delete", ascii "clear",
    ascii "list"]

/-- Whether a detail fetch delivered an item. -/
def isFetched : Run (Except GoError SecretItem) → Bool
  | Run.done (Except.ok _) => true
  | _ => false

/-- Whether a detail fetch panicked. -/
def isPanic : Run (Except GoError SecretItem) → Bool
  | Run.panic => true
  | _ => false

/-- The items that the detail fetches delivered, in order. -/
def fetchedItems : List (Run (Except GoError SecretItem)) → List SecretItem
  | [] => []
  | Run.done (Except.ok item) :: rest => item :: fetchedItems rest
  | _ :: rest => fetchedItems rest

/-- The read of the `Label` property in a detail fetch that starts in daemon state `d`. -/
def readLabel {σ : Type} (bus : Bus σ) (itemPath : ObjectPath) (d : σ) : Except GoError Value × σ :=
  bus.GetProperty d ⟨DBUS_SERVICE_NAME, itemPath⟩ PROP_LABEL

/-- The read of the `Attributes` property, after the read of `Label`. -/
def readAttributes {σ : Type} (bus : Bus σ) (itemPath : ObjectPath) (d : σ) :
    Except GoError Value × σ :=
  bus.GetProperty (readLabel bus itemPath d).2 ⟨DBUS_SERVICE_NAME, itemPath⟩ PROP_ATTRIBUTES

/-- The read of the `Created` property, after the read of `Attributes`. -/
def readCreated {σ : Type} (bus : Bus σ) (itemPath : ObjectPath) (d : σ) :
    Except GoError Value × σ :=
  bus.GetProperty (readAttributes bus itemPath d).2 ⟨DBUS_SERVICE_NAME, itemPath⟩ PROP_CREATED

/-- The read of the `Modified` property, after the read of `Created`. -/
def readModified {σ : Type} (bus : Bus σ) (itemPath : ObjectPath) (d : σ) :
    Except GoError Value × σ :=
  bus.GetProperty (readCreated bus itemPath d).2 ⟨DBUS_SERVICE_NAME, itemPath⟩ PROP_MODIFIED

/-! ## Concrete invocations -/

/-- An invocation with arguments `args` and standard input `stdin`, no terminal attached,
the bus reachable. -/
def invocation (args : List Str) (stdin : Str) : Env :=
  { args := args, stdin := stdin, stdinIsTerminal := false, stdoutIsTerminal := false,
    termRead := Except.ok [], sessionBus := none }

/-- A daemon holding the given items, all in the first slots. -/
def daemonWith (items : List StoredItem) : Daemon :=
  { slots := items.map some, sessions := 0, clock := 0 }

/-- A daemon holding, for the key `k`, a locked record with value `L` and, after it, an
unlocked record with value `U`. -/
def lockedThenUnlocked : Daemon :=
  daemonWith [ownItem (ascii "k") [76] true, ownItem (ascii "k") [85] false]

/-- A record of this tool with label and key `name`, unlocked, with an empty value. -/
def labelled (name : Str) : StoredItem := ownItem name [] false

/-- A daemon holding records labelled `alpha`, `beta` and `alphabet`. -/
def alphaBetaAlphabet : Daemon :=
  daemonWith [labelled (ascii "alpha"), labelled (ascii "beta"), labelled (ascii "alphabet")]

/-- A daemon holding one record, locked, for the key `k`. -/
def lockedOnly : Daemon := daemonWith [ownItem (ascii "k") [86] true]

/-- The daemon model behind a bus on which the read of the `Created` property of the item
in slot 1 fails. -/
def flakyBus : Bus Daemon :=
  { daemonBus with
    GetProperty := fun d obj name =>
      if name = PROP_CREATED ∧ obj.path = itemPath 1 then
        (Except.error (ascii "org.freedesktop.DBus.Error.NoReply"), d)
      else daemonBus.GetProperty d obj name }

/-- The connection state in which the listing loop of `ListSecrets` starts: the daemon is
in state `d` and the search and open-session calls have been issued. -/
def listingWire {σ : Type} (w : Wire σ) (d : σ) : Wire σ :=
  { daemon := d,
    calls := w.calls ++
      [Request.SearchItems ⟨DBUS_SERVICE_NAME, DBUS_PATH_SECRETS⟩
          [(ATTR_APPLICATION, APPLICATION)],
        Request.OpenSession ⟨DBUS_SERVICE_NAME, DBUS_PATH_SECRETS⟩ (ascii "plain")
          (Value.str [])] }

/-! # Theorems -/

/-! ## Strings -/

theorem stringsJoin_cons_cons (x : Byte) (l : Str) (ls : List Str) (sep : Str) :
    stringsJoin ((x :: l) :: ls) sep = x :: stringsJoin (l :: ls) sep := by
  cases ls <;> simp [stringsJoin]

theorem stringsJoin_eq_intercalate (sep : Str) (elems : List Str) :
    stringsJoin elems sep = sep.intercalate elems := by
  induction elems with
  | nil => simp [stringsJoin, List.intercalate]
  | cons a rest ih =>
    cases rest with
    | nil => simp [stringsJoin, List.intercalate]
    | cons b rest' =>
      simp only [stringsJoin, ih]
      simp [List.intercalate, List.intersperse]

theorem startsWith_iff (s sub : Str) : startsWith s sub = true ↔ ∃ t, s = sub ++ t := by
  induction sub generalizing s with
  | nil => simp [startsWith]
  | cons b t ih =>
    cases s with
    | nil => simp [startsWith]
    | cons a s' =>
      simp only [startsWith, Bool.and_eq_true, beq_iff_eq, ih, List.cons_append,
        List.cons.injEq]
      constructor
      · rintro ⟨h, u, hu⟩; exact ⟨u, h, hu⟩
      · rintro ⟨u, h, hu⟩; exact ⟨h, u, hu⟩

/-- Go `strings.Contains` decides whether `sub` occurs in `s` as a contiguous run. -/
theorem stringsContains_iff (s sub : Str) : stringsContains s sub = true ↔ sub <:+: s := by
  induction s with
  | nil =>
    simp only [stringsContains, startsWith_iff, List.infix_nil]
    constructor
    · rintro ⟨t, ht⟩
      cases sub with
      | nil => rfl
      | cons b u => simp at ht
    · rintro rfl; exact ⟨[], rfl⟩
  | cons a s' ih =>
    rw [stringsContains, Bool.or_eq_true, ih, startsWith_iff, List.infix_cons_iff]
    constructor
    · rintro (⟨t, ht⟩ | h)
      · exact Or.inl ⟨t, ht.symm⟩
      · exact Or.inr h
    · rintro (⟨t, ht⟩ | h)
      · exact Or.inl ⟨t, ht.symm⟩
      · exact Or.inr h

/-! ## Reading the value: the scanner against the lines of the specification -/

theorem joinPending_nil (ls : List Str) : joinPending [] ls = ls := by
  cases ls <;> simp [joinPending]

theorem specLines_LF (rest : Str) : specLines (LF :: rest) = [] :: specLines rest := by
  simp [specLines]

theorem specLines_cons_ne_nil (b : Byte) (rest : Str) : specLines (b :: rest) ≠ [] := by
  by_cases hb : b = LF
  · subst hb; simp [specLines_LF]
  · simp only [specLines, if_neg hb]
    cases specLines rest <;> simp

theorem joinPending_snoc (cur : Str) (b : Byte) (hb : b ≠ LF) (rest : Str) :
    joinPending cur (specLines (b :: rest)) = joinPending (cur ++ [b]) (specLines rest) := by
  simp only [specLines, if_neg hb]
  cases specLines rest <;> simp [joinPending]

/-- The scanner loop delivers the lines of the input, each without its terminal carriage
return, and fails exactly when a line fills the buffer. -/
theorem scanLines_eq (input : Str) : ∀ cur : Str,
    scanLines cur input =
      if (joinPending cur (specLines input)).any (fun l => decide (MaxScanTokenSize ≤ l.length))
      then Except.error ErrTooLong
      else Except.ok ((joinPending cur (specLines input)).map dropCR) := by
  induction input with
  | nil =>
    intro cur
    by_cases hc : cur = []
    · simp [scanLines, specLines, joinPending, hc]
    · by_cases hl : MaxScanTokenSize ≤ cur.length <;>
        simp [scanLines, specLines, joinPending, hc, hl]
  | cons b rest ih =>
    intro cur
    by_cases hl : MaxScanTokenSize ≤ cur.length
    · have hany : (joinPending cur (specLines (b :: rest))).any
          (fun l => decide (MaxScanTokenSize ≤ l.length)) = true := by
        cases h : specLines (b :: rest) with
        | nil => exact absurd h (specLines_cons_ne_nil b rest)
        | cons l ls =>
          simp only [joinPending, List.any_cons, List.length_append, Bool.or_eq_true,
            decide_eq_true_eq]
          left; omega
      simp [scanLines, hl, hany]
    · by_cases hb : b = LF
      · subst hb
        simp only [scanLines, if_neg hl, if_true]
        rw [ih [], joinPending_nil, specLines_LF]
        simp only [joinPending, List.append_nil, List.any_cons, List.map_cons]
        by_cases ha : (specLines rest).any (fun l => decide (MaxScanTokenSize ≤ l.length)) = true
        · simp [ha]
        · simp [ha, hl]
      · rw [joinPending_snoc cur b hb rest]
        simp only [scanLines, if_neg hl, if_neg hb]
        exact ih (cur ++ [b])

/-- No line of the specification holds a newline. -/
theorem specLines_no_LF (input : Str) : ∀ l ∈ specLines input, LF ∉ l := by
  induction input with
  | nil => simp [specLines]
  | cons b rest ih =>
    by_cases hb : b = LF
    · subst hb
      rw [specLines_LF]
      intro l hl
      rcases List.mem_cons.1 hl with h | h
      · subst h; simp
      · exact ih l h
    · simp only [specLines, if_neg hb]
      cases hs : specLines rest with
      | nil => simp; exact fun h => hb h.symm
      | cons l ls =>
        rw [hs] at ih
        intro x hx
        rcases List.mem_cons.1 hx with h | h
        · subst h
          have hl := ih l (List.mem_cons_self _ _)
          simp only [List.mem_cons, not_or]
          exact ⟨fun h => hb h.symm, hl⟩
        · exact ih x (List.mem_cons_of_mem _ h)

/-- The lines of the specification, joined by newlines, give the input back, up to one
final newline. -/
theorem stringsJoin_specLines (input : Str) :
    stringsJoin (specLines input) [LF] =
      if input.getLast? = some LF then input.dropLast else input := by
  induction input with
  | nil => simp [specLines, stringsJoin]
  | cons b rest ih =>
    by_cases hb : b = LF
    · subst hb
      rw [specLines_LF]
      cases rest with
      | nil => simp [specLines, stringsJoin]
      | cons c rest' =>
        cases hs : specLines (c :: rest') with
        | nil => exact absurd hs (specLines_cons_ne_nil c rest')
        | cons l ls =>
          rw [hs] at ih
          simp only [stringsJoin, List.nil_append, ih, List.getLast?_cons_cons]
          split <;> simp
    · simp only [specLines, if_neg hb]
      cases rest with
      | nil => simp [specLines, stringsJoin, hb]
      | cons c rest' =>
        cases hs : specLines (c :: rest') with
        | nil => exact absurd hs (specLines_cons_ne_nil c rest')
        | cons l ls =>
          rw [hs] at ih
          simp only [stringsJoin_cons_cons, ih, List.getLast?_cons_cons]
          split <;> simp

/-- C7, as stated, fails: for the piped input `"a\r\n"` the value `set` resolves is `"a"`,
while the one line of the input, kept unchanged, is `"a\r"`. -/
theorem readPassword_drops_carriage_return :
    (invocation [] [97, 13, 10]).stdinIsTerminal = false ∧
    (readPassword (invocation [] [97, 13, 10])).1 = Except.ok [97] ∧
    stringsJoin (specLines [97, 13, 10]) [LF] = [97, 13] ∧
    (readPassword (invocation [] [97, 13, 10])).1 ≠
      Except.ok (stringsJoin (specLines [97, 13, 10]) [LF]) := by
  decide

/-- C7 (amended): for every content of a non-terminal standard input, `readPassword` fails
with the scanner's token-too-long error when a line of the input has `MaxScanTokenSize`
bytes or more, and otherwise succeeds with the input's lines joined by single newline
characters, where the lines are the runs of bytes between newline characters (a final
newline terminates the last line) and each line is kept unchanged except that one
carriage return at its end is dropped. -/
theorem readPassword_piped (env : Env) (h : env.stdinIsTerminal = false) :
    (readPassword env).1 =
      if (specLines env.stdin).any (fun l => decide (MaxScanTokenSize ≤ l.length))
      then Except.error ErrTooLong
      else Except.ok (stringsJoin ((specLines env.stdin).map dropCR) [LF]) := by
  simp only [readPassword, h, scanLines_eq, joinPending_nil]
  by_cases hl : (specLines env.stdin).any (fun l => decide (MaxScanTokenSize ≤ l.length)) = true
  · simp [hl]
  · simp [hl]

/-- Witness of `readPassword_piped`: the piped input `"a\r\nb\n"`. -/
theorem readPassword_piped_witness :
    (invocation [] [97, 13, 10, 98, 10]).stdinIsTerminal = false ∧
    (readPassword (invocation [] [97, 13, 10, 98, 10])).1 =
      if (specLines (invocation [] [97, 13, 10, 98, 10]).stdin).any
          (fun l => decide (MaxScanTokenSize ≤ l.length))
      then Except.error ErrTooLong
      else Except.ok
        (stringsJoin ((specLines (invocation [] [97, 13, 10, 98, 10]).stdin).map dropCR) [LF]) :=
  ⟨by decide, readPassword_piped (invocation [] [97, 13, 10, 98, 10]) (by decide)⟩

/-! ## The dispatcher -/

theorem main_set {σ : Type} (env : Env) (bus : Bus σ) (p : Proc σ) (prog command : Str)
    (args : List Str) (hargs : env.args = prog :: command :: args)
    (h : command = ascii "set" ∨ command = ascii "store") :
    main env bus p = finish prog (actionSet env bus args p) := by
  simp only [main, hargs]
  rw [if_pos h]

theorem main_get {σ : Type} (env : Env) (bus : Bus σ) (p : Proc σ) (prog command : Str)
    (args : List Str) (hargs : env.args = prog :: command :: args)
    (h : command = ascii "get" ∨ command = ascii "lookup") :
    main env bus p = finish prog (actionGet env bus args p) := by
  simp only [main, hargs]
  rcases h with rfl | rfl
  · rw [if_neg (by decide), if_pos (by decide)]
  · rw [if_neg (by decide), if_pos (by decide)]

theorem main_delete {σ : Type} (env : Env) (bus : Bus σ) (p : Proc σ) (prog command : Str)
    (args : List Str) (hargs : env.args = prog :: command :: args)
    (h : command = ascii "delete" ∨ command = ascii "clear") :
    main env bus p = finish prog (actionDelete env bus args p) := by
  simp only [main, hargs]
  rcases h with rfl | rfl
  · rw [if_neg (by decide), if_neg (by decide), if_pos (by decide)]
  · rw [if_neg (by decide), if_neg (by decide), if_pos (by decide)]

theorem main_list {σ : Type} (env : Env) (bus : Bus σ) (p : Proc σ) (prog : Str)
    (args : List Str) (hargs : env.args = prog :: ascii "list" :: args) :
    main env bus p = finish prog (actionList env bus args p) := by
  simp only [main, hargs]
  rw [if_neg (by decide), if_neg (by decide), if_neg (by decide)]
  simp

theorem main_unknown {σ : Type} (env : Env) (bus : Bus σ) (p : Proc σ) (prog command : Str)
    (args : List Str) (hargs : env.args = prog :: command :: args) (hc : command ∉ VERBS) :
    main env bus p = (2, { p with stderr := p.stderr ++ [ErrOut.usage] }) := by
  simp only [VERBS, List.mem_cons, List.mem_singleton, List.not_mem_nil, or_false, not_or] at hc
  simp [main, hargs, hc]

/-- C5, as stated, fails: `set`, `get` and `delete` given without a key end the process
with exit status 1, not 2. -/
theorem missing_key_exits_1 :
    (main (invocation [ascii "gosecret", ascii "set"] []) daemonBus (start emptyDaemon)).1 = 1 ∧
    (main (invocation [ascii "gosecret", ascii "get"] []) daemonBus (start emptyDaemon)).1 = 1 ∧
    (main (invocation [ascii "gosecret", ascii "delete"] []) daemonBus (start emptyDaemon)).1 = 1 := by
  decide

/-- C5 (amended): an invocation with no verb or with an unknown verb prints the usage and
ends with exit status 2; `set`, `get` and `delete` (and their aliases) given without a key
are reported as an error of the action and end with exit status 1. -/
theorem usage_exit_status {σ : Type} (env : Env) (bus : Bus σ) (p : Proc σ)
    (prog command : Str) (args : List Str) (hc : command ∉ VERBS) :
    main { env with args := [] } bus p = (2, { p with stderr := p.stderr ++ [ErrOut.usage] }) ∧
    main { env with args := [prog] } bus p =
      (2, { p with stderr := p.stderr ++ [ErrOut.usage] }) ∧
    main { env with args := prog :: command :: args } bus p =
      (2, { p with stderr := p.stderr ++ [ErrOut.usage] }) ∧
    (∀ verb ∈ [ascii "set", ascii "store"],
      main { env with args := [prog, verb] } bus p =
        (1, { p with stderr := p.stderr ++
          [ErrOut.message prog (ascii "must specify a key")] })) ∧
    (∀ verb ∈ [ascii "get", ascii "lookup", ascii "delete", ascii "clear"],
      main { env with args := [prog, verb] } bus p =
        (1, { p with stderr := p.stderr ++
          [ErrOut.message prog (ascii "must specify exactly one key")] })) := by
  refine ⟨by simp [main], by simp [main], main_unknown _ bus p prog command args rfl hc, ?_, ?_⟩
  · intro verb hv
    simp only [List.mem_cons, List.mem_singleton, List.not_mem_nil, or_false] at hv
    rw [main_set _ bus p prog verb [] rfl hv]
    simp [actionSet, finish]
  · intro verb hv
    simp only [List.mem_cons, List.mem_singleton, List.not_mem_nil, or_false] at hv
    rcases hv with h | h | h | h
    · rw [main_get _ bus p prog verb [] rfl (Or.inl h)]; simp [actionGet, finish]
    · rw [main_get _ bus p prog verb [] rfl (Or.inr h)]; simp [actionGet, finish]
    · rw [main_delete _ bus p prog verb [] rfl (Or.inl h)]; simp [actionDelete, finish]
    · rw [main_delete _ bus p prog verb [] rfl (Or.inr h)]; simp [actionDelete, finish]

/-- Witness of `usage_exit_status`: the unknown verb `frobnicate`. -/
theorem usage_exit_status_witness :
    ascii "frobnicate" ∉ VERBS ∧
    main { invocation [] [] with args := [ascii "gosecret", ascii "frobnicate", ascii "k"] }
        daemonBus (start emptyDaemon) =
      (2, { start emptyDaemon with stderr := (start emptyDaemon).stderr ++ [ErrOut.usage] }) :=
  ⟨by decide,
    (usage_exit_status (invocation [] []) daemonBus (start emptyDaemon) (ascii "gosecret")
      (ascii "frobnicate") [ascii "k"] (by decide)).2.2.1⟩

/-! ## `set`: where the value comes from -/

/-- The calls `SetSecret` issues: one open-session call and, when the session is opened,
one create-item call that carries the secret bytes unchanged, with the replace flag set. -/
theorem SetSecret_calls {σ : Type} (bus : Bus σ) (key secret : Str) (w : Wire σ) :
    (SetSecret bus key secret w).2.calls =
      w.calls ++
        Request.OpenSession ⟨DBUS_SERVICE_NAME, DBUS_PATH_SECRETS⟩ (ascii "plain") (Value.str []) ::
        (match (bus.OpenSession w.daemon ⟨DBUS_SERVICE_NAME, DBUS_PATH_SECRETS⟩ (ascii "plain")
            (Value.str [])).1 with
          | CallResult.stored (_, sessionPath) =>
            [Request.CreateItem
              ⟨DBUS_SERVICE_NAME, ascii "/org/freedesktop/secrets/aliases/default"⟩
              [(PROP_LABEL, Value.str key),
                (PROP_ATTRIBUTES,
                  Value.dict [(ATTR_KEY, key), (ATTR_APPLICATION, APPLICATION)])]
              { Session := sessionPath, Parameters := [], Value := secret,
                ContentType := ascii "text/plain" }
              true]
          | _ => []) := by
  unfold SetSecret callOpenSession
  cases h : (bus.OpenSession w.daemon ⟨DBUS_SERVICE_NAME, DBUS_PATH_SECRETS⟩ (ascii "plain")
      (Value.str [])).1 with
  | failed e => simp
  | malformed e => simp
  | stored a =>
    obtain ⟨o, sp⟩ := a
    simp only [callCreateItem]
    split <;> rename_i heq <;> simp only [Prod.mk.injEq] at heq <;> obtain ⟨_, rfl⟩ := heq <;>
      simp

/-- C6: when `set` is given a key and at least one further positional argument, the
outcome does not depend on standard input (its content, whether it is a terminal, what
would be typed there), standard input is not read, and the value passed to `SetSecret`,
which reaches the daemon in the create-item call, is exactly the further arguments joined
by single space characters. -/
theorem actionSet_value_from_arguments {σ : Type} (env : Env) (bus : Bus σ) (p : Proc σ)
    (key v : Str) (more : List Str) (stdin : Str) (tty : Bool) (typed : Except GoError Str) :
    actionSet { env with stdin := stdin, stdinIsTerminal := tty, termRead := typed } bus
        (key :: v :: more) p = actionSet env bus (key :: v :: more) p ∧
    (actionSet env bus (key :: v :: more) p).2.stdinRead = p.stdinRead ∧
    actionSet { env with sessionBus := none } bus (key :: v :: more) p =
      (Ctl.ret (SetSecret bus key ((ascii " ").intercalate (v :: more)) p.wire).1,
        { p with
          conn := Conn.closed
          wire := (SetSecret bus key ((ascii " ").intercalate (v :: more)) p.wire).2 }) ∧
    (actionSet { env with sessionBus := none } bus (key :: v :: more) p).2.wire.calls =
      p.wire.calls ++
        Request.OpenSession ⟨DBUS_SERVICE_NAME, DBUS_PATH_SECRETS⟩ (ascii "plain") (Value.str []) ::
        (match (bus.OpenSession p.wire.daemon ⟨DBUS_SERVICE_NAME, DBUS_PATH_SECRETS⟩
            (ascii "plain") (Value.str [])).1 with
          | CallResult.stored (_, sessionPath) =>
            [Request.CreateItem
              ⟨DBUS_SERVICE_NAME, ascii "/org/freedesktop/secrets/aliases/default"⟩
              [(PROP_LABEL, Value.str key),
                (PROP_ATTRIBUTES,
                  Value.dict [(ATTR_KEY, key), (ATTR_APPLICATION, APPLICATION)])]
              { Session := sessionPath, Parameters := [],
                Value := (ascii " ").intercalate (v :: more),
                ContentType := ascii "text/plain" }
              true]
          | _ => []) := by
  have h3 : actionSet { env with sessionBus := none } bus (key :: v :: more) p =
      (Ctl.ret (SetSecret bus key ((ascii " ").intercalate (v :: more)) p.wire).1,
        { p with
          conn := Conn.closed
          wire := (SetSecret bus key ((ascii " ").intercalate (v :: more)) p.wire).2 }) := by
    simp [actionSet, NewSecretService, Close, stringsJoin_eq_intercalate]
  refine ⟨?_, ?_, h3, ?_⟩
  · simp [actionSet, NewSecretService]
  · simp only [actionSet, NewSecretService]
    cases env.sessionBus <;> simp [Close]
  · rw [h3]
    exact SetSecret_calls bus key _ p.wire

/-! ## `get`: exit status and output -/

/-- C2, as stated, fails: a record matching the key is found and `GetSecret` succeeds, but
its stored value is empty; `get` exits with status 1 and writes nothing. -/
theorem get_empty_value_exits_1 :
    (daemonBus.SearchItems (daemonWith [ownItem (ascii "k") [] false])
        ⟨DBUS_SERVICE_NAME, DBUS_PATH_SECRETS⟩
        [(ATTR_KEY, ascii "k"), (ATTR_APPLICATION, APPLICATION)]).1 =
      CallResult.stored ([itemPath 0], []) ∧
    (GetSecret daemonBus (ascii "k")
        (start (daemonWith [ownItem (ascii "k") [] false])).wire).1 = Except.ok [] ∧
    (main (invocation [ascii "gosecret", ascii "get", ascii "k"] []) daemonBus
        (start (daemonWith [ownItem (ascii "k") [] false]))).1 = 1 ∧
    (main (invocation [ascii "gosecret", ascii "get", ascii "k"] []) daemonBus
        (start (daemonWith [ownItem (ascii "k") [] false]))).2.stdout = [] := by
  decide

/-- C2 (amended): for every key, once the bus connection is established, `get` (or
`lookup`) exits with status 1 and writes nothing to standard output when `GetSecret`
returns the empty value without error, which it does when no record matches the key (and
also when the value of the selected record is empty), or when `GetSecret` fails; whenever
`GetSecret` succeeds with a non-empty value it writes the raw value to standard output,
followed by a newline only when standard output is a terminal, and exits with status 0. -/
theorem get_exit_status {σ : Type} (env : Env) (bus : Bus σ) (p : Proc σ)
    (prog command key : Str) (hargs : env.args = [prog, command, key])
    (hc : command = ascii "get" ∨ command = ascii "lookup") (hb : env.sessionBus = none) :
    ((bus.SearchItems p.wire.daemon ⟨DBUS_SERVICE_NAME, DBUS_PATH_SECRETS⟩
        [(ATTR_KEY, key), (ATTR_APPLICATION, APPLICATION)]).1 = CallResult.stored ([], []) →
      (GetSecret bus key p.wire).1 = Except.ok []) ∧
    ((GetSecret bus key p.wire).1 = Except.ok [] →
      (main env bus p).1 = 1 ∧ (main env bus p).2.stdout = p.stdout) ∧
    (∀ err, (GetSecret bus key p.wire).1 = Except.error err →
      (main env bus p).1 = 1 ∧ (main env bus p).2.stdout = p.stdout) ∧
    (∀ secret, (GetSecret bus key p.wire).1 = Except.ok secret → secret ≠ [] →
      (main env bus p).1 = 0 ∧
      (main env bus p).2.stdout =
        p.stdout ++ [Out.text secret] ++
          (if env.stdoutIsTerminal then [Out.text [LF]] else [])) := by
  rw [main_get env bus p prog command [key] hargs hc]
  refine ⟨?_, ?_, ?_, ?_⟩
  · intro hs
    simp only [GetSecret, callSearchItems, hs]
  · intro hg
    cases hr : GetSecret bus key p.wire with
    | mk r w =>
      rw [hr] at hg
      simp only at hg
      subst hg
      simp [actionGet, NewSecretService, hb, hr, finish]
  · intro err hg
    cases hr : GetSecret bus key p.wire with
    | mk r w =>
      rw [hr] at hg
      simp only at hg
      subst hg
      simp [actionGet, NewSecretService, hb, hr, finish, Close]
  · intro secret hg hne
    cases hr : GetSecret bus key p.wire with
    | mk r w =>
      rw [hr] at hg
      simp only at hg
      subst hg
      simp [actionGet, NewSecretService, hb, hr, finish, Close, hne]

/-- Witness of `get_exit_status`: `get k` when the daemon holds the value `x` for `k`. -/
theorem get_exit_status_witness :
    (invocation [ascii "gosecret", ascii "get", ascii "k"] []).args =
      [ascii "gosecret", ascii "get", ascii "k"] ∧
    (ascii "get" = ascii "get" ∨ ascii "get" = ascii "lookup") ∧
    (invocation [ascii "gosecret", ascii "get", ascii "k"] []).sessionBus = none ∧
    (main (invocation [ascii "gosecret", ascii "get", ascii "k"] []) daemonBus
        (start (daemonWith [ownItem (ascii "k") [120] false]))).1 = 0 ∧
    (main (invocation [ascii "gosecret", ascii "get", ascii "k"] []) daemonBus
        (start (daemonWith [ownItem (ascii "k") [120] false]))).2.stdout = [Out.text [120]] :=
  ⟨by decide, by decide, by decide,
    (get_exit_status (invocation [ascii "gosecret", ascii "get", ascii "k"] []) daemonBus
      (start (daemonWith [ownItem (ascii "k") [120] false])) (ascii "gosecret") (ascii "get")
      (ascii "k") (by decide) (by decide) (by decide)).2.2.2 [120] (by decide) (by decide)⟩

/-! ## The bus connection -/

/-- C10, at the failing input: `get` for a key without a record ends the process with
status 1 while the connection that `NewSecretService` established is still open: `Close`
has not been called. -/
theorem get_not_found_leaves_connection_open :
    (invocation [ascii "gosecret", ascii "get", ascii "missing-key"] []).sessionBus = none ∧
    (main (invocation [ascii "gosecret", ascii "get", ascii "missing-key"] []) daemonBus
        (start emptyDaemon)).1 = 1 ∧
    (main (invocation [ascii "gosecret", ascii "get", ascii "missing-key"] []) daemonBus
        (start emptyDaemon)).2.conn = Conn.opened := by
  decide

/-- The connection is open at the end of the process only after the not-found exit of
`get`: on every other path on which `NewSecretService` succeeded, `Close` has been called
by the time the process ends. -/
theorem connection_open_only_after_get_exit {σ : Type} (env : Env) (bus : Bus σ) (p : Proc σ)
    (hp : p.conn = Conn.absent) (ho : (main env bus p).2.conn = Conn.opened) :
    ∃ prog command key, env.args = [prog, command, key] ∧
      (command = ascii "get" ∨ command = ascii "lookup") ∧
      (GetSecret bus key p.wire).1 = Except.ok [] ∧ (main env bus p).1 = 1 := by
  have hfin : ∀ (prog : Str) (r : Ctl × Proc σ), (finish prog r).2.conn = r.2.conn := by
    intro prog r
    obtain ⟨c, q⟩ := r
    cases c with
    | ret e => cases e <;> rfl
    | exit n => rfl
    | panic => rfl
  rcases hargs : env.args with _ | ⟨prog, _ | ⟨command, args⟩⟩
  · simp [main, hargs, hp] at ho
  · simp [main, hargs, hp] at ho
  · by_cases h1 : command = ascii "set" ∨ command = ascii "store"
    · rw [main_set env bus p prog command args hargs h1, hfin] at ho
      exfalso
      revert ho
      unfold actionSet
      split
      · simp [hp]
      · simp only [NewSecretService]
        split <;> cases env.sessionBus <;> simp [Close, hp]
      · simp only [NewSecretService]
        cases env.sessionBus <;> simp [Close, hp]
    · by_cases h2 : command = ascii "get" ∨ command = ascii "lookup"
      · rw [main_get env bus p prog command args hargs h2, hfin] at ho
        rw [main_get env bus p prog command args hargs h2]
        rcases args with _ | ⟨key, _ | ⟨k2, more⟩⟩
        · simp [actionGet, hp] at ho
        · refine ⟨prog, command, key, rfl, h2, ?_⟩
          revert ho
          simp only [actionGet, NewSecretService]
          cases env.sessionBus with
          | some e => simp [hp]
          | none =>
            simp only
            cases hg : GetSecret bus key p.wire with
            | mk r w =>
              cases r with
              | error e => simp [Close]
              | ok secret =>
                by_cases hs : secret = []
                · subst hs; simp [finish]
                · simp [hs, Close]
        · simp [actionGet, hp] at ho
      · by_cases h3 : command = ascii "delete" ∨ command = ascii "clear"
        · rw [main_delete env bus p prog command args hargs h3, hfin] at ho
          exfalso
          revert ho
          unfold actionDelete
          split
          · simp only [NewSecretService]
            cases env.sessionBus <;> simp [Close, hp]
          · simp [hp]
        · by_cases h4 : command = ascii "list"
          · subst h4
            rw [main_list env bus p prog args hargs, hfin] at ho
            exfalso
            revert ho
            simp only [actionList, NewSecretService]
            cases env.sessionBus with
            | some e => simp [hp]
            | none =>
              simp only
              split <;> simp [Close]
          · have hc : command ∉ VERBS := by
              simp only [VERBS, List.mem_cons, List.mem_singleton, List.not_mem_nil, or_false]
              tauto
            rw [main_unknown env bus p prog command args hargs hc] at ho
            simp [hp] at ho

/-! ## `GetSecret`: which item is asked for its secret -/

/-- The calls of `fetchSecret`: one open-session call and, when the session is opened,
one get-secret call on the selected item. -/
theorem fetchSecret_calls {σ : Type} (bus : Bus σ) (item : ObjectPath) (w : Wire σ) :
    (fetchSecret bus item w).2.calls =
      w.calls ++
        Request.OpenSession ⟨DBUS_SERVICE_NAME, DBUS_PATH_SECRETS⟩ (ascii "plain") (Value.str []) ::
        (match (bus.OpenSession w.daemon ⟨DBUS_SERVICE_NAME, DBUS_PATH_SECRETS⟩ (ascii "plain")
            (Value.str [])).1 with
          | CallResult.stored (_, sessionPath) =>
            [Request.GetSecret ⟨DBUS_SERVICE_NAME, item⟩ sessionPath]
          | _ => []) := by
  unfold fetchSecret callOpenSession
  cases h : (bus.OpenSession w.daemon ⟨DBUS_SERVICE_NAME, DBUS_PATH_SECRETS⟩ (ascii "plain")
      (Value.str [])).1 with
  | failed e => simp
  | malformed e => simp
  | stored a =>
    obtain ⟨o, sp⟩ := a
    simp only [callGetSecret]
    cases (bus.GetSecret (bus.OpenSession w.daemon ⟨DBUS_SERVICE_NAME, DBUS_PATH_SECRETS⟩
        (ascii "plain") (Value.str [])).2 ⟨DBUS_SERVICE_NAME, item⟩ sp).1 with
    | failed e => simp
    | malformed e => simp
    | stored xs => simp only; cases secretData xs <;> simp

/-- C3: for every search result (unlocked, locked): if both lists are empty, `GetSecret`
returns the empty result with no error and has issued the search call only (no
open-session call, no get-secret call); otherwise, with `item` being `unlocked[0]` when
`unlocked` is non-empty and `locked[0]` when `unlocked` is empty, the calls after the
search are one open-session call and, when the session is opened, one get-secret call
on `item`. -/
theorem GetSecret_selection {σ : Type} (bus : Bus σ) (key : Str) (w : Wire σ)
    (unlocked locked : List ObjectPath) (d1 : σ)
    (hs : bus.SearchItems w.daemon ⟨DBUS_SERVICE_NAME, DBUS_PATH_SECRETS⟩
        [(ATTR_KEY, key), (ATTR_APPLICATION, APPLICATION)] =
      (CallResult.stored (unlocked, locked), d1)) :
    (unlocked = [] → locked = [] →
      GetSecret bus key w =
        (Except.ok [],
          { daemon := d1,
            calls := w.calls ++
              [Request.SearchItems ⟨DBUS_SERVICE_NAME, DBUS_PATH_SECRETS⟩
                [(ATTR_KEY, key), (ATTR_APPLICATION, APPLICATION)]] })) ∧
    (∀ item : ObjectPath,
      ((∃ us, unlocked = item :: us) ∨ (unlocked = [] ∧ ∃ ls, locked = item :: ls)) →
      (GetSecret bus key w).2.calls =
        w.calls ++
          [Request.SearchItems ⟨DBUS_SERVICE_NAME, DBUS_PATH_SECRETS⟩
              [(ATTR_KEY, key), (ATTR_APPLICATION, APPLICATION)],
            Request.OpenSession ⟨DBUS_SERVICE_NAME, DBUS_PATH_SECRETS⟩ (ascii "plain")
              (Value.str [])] ++
          (match (bus.OpenSession d1 ⟨DBUS_SERVICE_NAME, DBUS_PATH_SECRETS⟩ (ascii "plain")
              (Value.str [])).1 with
            | CallResult.stored (_, sessionPath) =>
              [Request.GetSecret ⟨DBUS_SERVICE_NAME, item⟩ sessionPath]
            | _ => [])) := by
  constructor
  · rintro rfl rfl
    simp [GetSecret, callSearchItems, hs]
  · rintro item (⟨us, rfl⟩ | ⟨rfl, ls, rfl⟩)
    · simp only [GetSecret, callSearchItems, hs, fetchSecret_calls]
      simp
    · simp only [GetSecret, callSearchItems, hs, fetchSecret_calls]
      simp

/-- Witness of `GetSecret_selection`: the daemon holds a locked and an unlocked record
for the key; the secret is asked of the unlocked one, `itemPath 1`. -/
theorem GetSecret_selection_witness :
    daemonBus.SearchItems (start lockedThenUnlocked).wire.daemon
        ⟨DBUS_SERVICE_NAME, DBUS_PATH_SECRETS⟩
        [(ATTR_KEY, ascii "k"), (ATTR_APPLICATION, APPLICATION)] =
      (CallResult.stored ([itemPath 1], [itemPath 0]), lockedThenUnlocked) ∧
    (GetSecret daemonBus (ascii "k") (start lockedThenUnlocked).wire).2.calls =
      (start lockedThenUnlocked).wire.calls ++
        [Request.SearchItems ⟨DBUS_SERVICE_NAME, DBUS_PATH_SECRETS⟩
            [(ATTR_KEY, ascii "k"), (ATTR_APPLICATION, APPLICATION)],
          Request.OpenSession ⟨DBUS_SERVICE_NAME, DBUS_PATH_SECRETS⟩ (ascii "plain")
            (Value.str [])] ++
        [Request.GetSecret ⟨DBUS_SERVICE_NAME, itemPath 1⟩ (sessionPathOf 0)] :=
  ⟨by decide,
    (GetSecret_selection daemonBus (ascii "k") (start lockedThenUnlocked).wire
      [itemPath 1] [itemPath 0] lockedThenUnlocked (by decide)).2 (itemPath 1)
      (Or.inl ⟨[], rfl⟩)⟩

/-! ## `DeleteSecret`: every match is deleted, up to the first failure -/

/-- The delete loop calls `Delete` on the paths in order, up to and including the first
call that fails; it returns that failure, and succeeds when no call failed. -/
theorem deleteLoop_spec {σ : Type} (bus : Bus σ) (items : List ObjectPath) : ∀ w : Wire σ,
    (deleteLoop bus items w).2.calls =
      w.calls ++
        (items.take (((deleteReplies bus items w.daemon).takeWhile Option.isNone).length + 1)).map
          (fun path => Request.Delete ⟨DBUS_SERVICE_NAME, path⟩) ∧
    (deleteLoop bus items w).1 =
      (match (deleteReplies bus items w.daemon).get?
          ((deleteReplies bus items w.daemon).takeWhile Option.isNone).length with
        | some (some err) => some (ascii "failed to delete item: " ++ err)
        | _ => none) ∧
    ((deleteLoop bus items w).1 = none ↔ ∀ r ∈ deleteReplies bus items w.daemon, r = none) := by
  induction items with
  | nil => intro w; simp [deleteLoop, deleteReplies]
  | cons x xs ih =>
    intro w
    cases hr : (bus.Delete w.daemon ⟨DBUS_SERVICE_NAME, x⟩).1 with
    | some e =>
      simp [deleteLoop, deleteReplies, callDelete, hr, List.takeWhile]
    | none =>
      have h := ih { daemon := (bus.Delete w.daemon ⟨DBUS_SERVICE_NAME, x⟩).2,
                     calls := w.calls ++ [Request.Delete ⟨DBUS_SERVICE_NAME, x⟩] }
      simp only [deleteLoop, deleteReplies, callDelete, hr, List.takeWhile, Option.isNone_none,
        List.length_cons, List.take_succ_cons, List.map_cons, List.get?_cons_succ,
        List.mem_cons, forall_eq_or_imp, true_and]
      refine ⟨?_, h.2.1, h.2.2⟩
      rw [h.1]
      simp

/-- C4: for every search result (unlocked, locked): if both lists are empty, `DeleteSecret`
fails with the error `no secret found with key: <key>` and has issued the search call
only; otherwise it issues delete calls on the references of unlocked followed by locked,
in that order, up to and including the first delete call that fails, returns that failure,
and returns success exactly when every reference of both lists was delete-called without
failure. -/
theorem DeleteSecret_all_matches {σ : Type} (bus : Bus σ) (key : Str) (w : Wire σ)
    (unlocked locked : List ObjectPath) (d1 : σ)
    (hs : bus.SearchItems w.daemon ⟨DBUS_SERVICE_NAME, DBUS_PATH_SECRETS⟩
        [(ATTR_KEY, key), (ATTR_APPLICATION, APPLICATION)] =
      (CallResult.stored (unlocked, locked), d1)) :
    (unlocked ++ locked = [] →
      DeleteSecret bus key w =
        (some (ascii "no secret found with key: " ++ key),
          { daemon := d1,
            calls := w.calls ++
              [Request.SearchItems ⟨DBUS_SERVICE_NAME, DBUS_PATH_SECRETS⟩
                [(ATTR_KEY, key), (ATTR_APPLICATION, APPLICATION)]] })) ∧
    (unlocked ++ locked ≠ [] →
      (DeleteSecret bus key w).2.calls =
        w.calls ++
          Request.SearchItems ⟨DBUS_SERVICE_NAME, DBUS_PATH_SECRETS⟩
            [(ATTR_KEY, key), (ATTR_APPLICATION, APPLICATION)] ::
          ((unlocked ++ locked).take
            (((deleteReplies bus (unlocked ++ locked) d1).takeWhile Option.isNone).length + 1)).map
            (fun path => Request.Delete ⟨DBUS_SERVICE_NAME, path⟩) ∧
      (DeleteSecret bus key w).1 =
        (match (deleteReplies bus (unlocked ++ locked) d1).get?
            ((deleteReplies bus (unlocked ++ locked) d1).takeWhile Option.isNone).length with
          | some (some err) => some (ascii "failed to delete item: " ++ err)
          | _ => none) ∧
      ((DeleteSecret bus key w).1 = none ↔
        ∀ r ∈ deleteReplies bus (unlocked ++ locked) d1, r = none)) := by
  constructor
  · intro he
    simp [DeleteSecret, callSearchItems, hs, he]
  · intro hne
    have hd : DeleteSecret bus key w =
        deleteLoop bus (unlocked ++ locked)
          { daemon := d1,
            calls := w.calls ++
              [Request.SearchItems ⟨DBUS_SERVICE_NAME, DBUS_PATH_SECRETS⟩
                [(ATTR_KEY, key), (ATTR_APPLICATION, APPLICATION)]] } := by
      cases hall : unlocked ++ locked with
      | nil => exact absurd hall hne
      | cons x xs => simp only [DeleteSecret, callSearchItems, hs, hall]
    have h := deleteLoop_spec bus (unlocked ++ locked)
      { daemon := d1,
        calls := w.calls ++
          [Request.SearchItems ⟨DBUS_SERVICE_NAME, DBUS_PATH_SECRETS⟩
            [(ATTR_KEY, key), (ATTR_APPLICATION, APPLICATION)]] }
    rw [hd]
    refine ⟨?_, h.2.1, h.2.2⟩
    rw [h.1, List.append_assoc]
    rfl

/-- Witness of `DeleteSecret_all_matches`: the daemon holds a locked and an unlocked record
for the key; both are deleted, the unlocked one first. -/
theorem DeleteSecret_all_matches_witness :
    daemonBus.SearchItems (start lockedThenUnlocked).wire.daemon
        ⟨DBUS_SERVICE_NAME, DBUS_PATH_SECRETS⟩
        [(ATTR_KEY, ascii "k"), (ATTR_APPLICATION, APPLICATION)] =
      (CallResult.stored ([itemPath 1], [itemPath 0]), lockedThenUnlocked) ∧
    [itemPath 1] ++ [itemPath 0] ≠ [] ∧
    DeleteSecret daemonBus (ascii "k") (start lockedThenUnlocked).wire =
      (none,
        { daemon := { lockedThenUnlocked with slots := [none, none] },
          calls :=
            [Request.SearchItems ⟨DBUS_SERVICE_NAME, DBUS_PATH_SECRETS⟩
                [(ATTR_KEY, ascii "k"), (ATTR_APPLICATION, APPLICATION)],
              Request.Delete ⟨DBUS_SERVICE_NAME, itemPath 1⟩,
              Request.Delete ⟨DBUS_SERVICE_NAME, itemPath 0⟩] }) ∧
    ((DeleteSecret daemonBus (ascii "k") (start lockedThenUnlocked).wire).1 = none ↔
      ∀ r ∈ deleteReplies daemonBus ([itemPath 1] ++ [itemPath 0]) lockedThenUnlocked,
        r = none) :=
  ⟨by decide, by decide, by rfl,
    ((DeleteSecret_all_matches daemonBus (ascii "k") (start lockedThenUnlocked).wire
      [itemPath 1] [itemPath 0] lockedThenUnlocked (by decide)).2 (by decide)).2.2⟩

/-! ## `ListSecrets`: which records are listed -/

/-- A record is kept by the filter of `ListSecrets` exactly when the pattern occurs in its
label as a contiguous run of bytes; the empty pattern keeps every record. -/
theorem filter_keeps_iff (pattern label : Str) :
    ¬ (pattern ≠ [] ∧ stringsContains label pattern = false) ↔ pattern <:+: label := by
  by_cases hp : pattern = []
  · subst hp; simp
  · rw [← stringsContains_iff]
    cases stringsContains label pattern <;> simp [hp]

/-- An item that `getItemDetails` delivers carries the path it was asked for. -/
theorem getItemDetails_path {σ : Type} (bus : Bus σ) (path session : ObjectPath) (w : Wire σ)
    (item : SecretItem)
    (h : (getItemDetails bus path session w).1 = Run.done (Except.ok item)) :
    item.Path = path := by
  revert h
  unfold getItemDetails
  split
  · simp
  · split
    · simp
    · split
      · simp
      · split
        · simp
        · simp only [Run.done.injEq, Except.ok.injEq]
          rintro rfl
          rfl
        · simp
      · simp
    · simp
  · simp

/-- The outcome of a detail fetch is decided by the four property reads: the first read
that fails makes the fetch fail with that error, and four reads that deliver values of
the expected types make it deliver an item, whatever the get-secret call returns. -/
theorem getItemDetails_outcome {σ : Type} (bus : Bus σ) (path session : ObjectPath)
    (w : Wire σ) :
    (∀ err, (getItemDetails bus path session w).1 = Run.done (Except.error err) ↔
      ((readLabel bus path w.daemon).1 = Except.error err ∨
        ((∃ l, (readLabel bus path w.daemon).1 = Except.ok (Value.str l)) ∧
          ((readAttributes bus path w.daemon).1 = Except.error err ∨
            ((∃ a, (readAttributes bus path w.daemon).1 = Except.ok (Value.dict a)) ∧
              ((readCreated bus path w.daemon).1 = Except.error err ∨
                ((∃ c, (readCreated bus path w.daemon).1 = Except.ok (Value.u64 c)) ∧
                  (readModified bus path w.daemon).1 = Except.error err))))))) ∧
    ((∃ item, (getItemDetails bus path session w).1 = Run.done (Except.ok item)) ↔
      ∃ l a c m,
        (readLabel bus path w.daemon).1 = Except.ok (Value.str l) ∧
        (readAttributes bus path w.daemon).1 = Except.ok (Value.dict a) ∧
        (readCreated bus path w.daemon).1 = Except.ok (Value.u64 c) ∧
        (readModified bus path w.daemon).1 = Except.ok (Value.u64 m)) := by
  unfold getItemDetails readModified readCreated readAttributes readLabel callGetProperty
  cases h1 : (bus.GetProperty w.daemon ⟨DBUS_SERVICE_NAME, path⟩ PROP_LABEL).1 with
  | error e => simp [eq_comm]
  | ok v1 =>
    cases v1 with
    | str l =>
      simp only
      cases h2 : (bus.GetProperty (bus.GetProperty w.daemon ⟨DBUS_SERVICE_NAME, path⟩
          PROP_LABEL).2 ⟨DBUS_SERVICE_NAME, path⟩ PROP_ATTRIBUTES).1 with
      | error e => simp [eq_comm]
      | ok v2 =>
        cases v2 with
        | dict a =>
          simp only
          cases h3 : (bus.GetProperty (bus.GetProperty (bus.GetProperty w.daemon
              ⟨DBUS_SERVICE_NAME, path⟩ PROP_LABEL).2 ⟨DBUS_SERVICE_NAME, path⟩
              PROP_ATTRIBUTES).2 ⟨DBUS_SERVICE_NAME, path⟩ PROP_CREATED).1 with
          | error e => simp [eq_comm]
          | ok v3 =>
            cases v3 with
            | u64 c =>
              simp only
              cases h4 : (bus.GetProperty (bus.GetProperty (bus.GetProperty (bus.GetProperty
                  w.daemon ⟨DBUS_SERVICE_NAME, path⟩ PROP_LABEL).2 ⟨DBUS_SERVICE_NAME, path⟩
                  PROP_ATTRIBUTES).2 ⟨DBUS_SERVICE_NAME, path⟩ PROP_CREATED).2
                  ⟨DBUS_SERVICE_NAME, path⟩ PROP_MODIFIED).1 with
              | error e => simp [eq_comm]
              | ok v4 => cases v4 <;> simp
            | _ => simp
        | _ => simp
    | _ => simp

/-- The listing loop, when no detail fetch panics, runs to its end and prints one row for
each delivered item that the filter keeps, in order. -/
theorem listLoop_spec {σ : Type} (bus : Bus σ) (pattern session : ObjectPath)
    (items : List ObjectPath) : ∀ (w : Wire σ) (out : List Out),
    (detailResults bus session items w).all (fun r => !isPanic r) = true →
    (listLoop bus pattern session items w out).1 = Run.done () ∧
    (listLoop bus pattern session items w out).2.2 =
      out ++ ((fetchedItems (detailResults bus session items w)).filter
        (fun item => decide (pattern <:+: item.Label))).map printSimpleItem := by
  induction items with
  | nil => intro w out _; simp [listLoop, detailResults, fetchedItems]
  | cons x xs ih =>
    intro w out hp
    cases hg : getItemDetails bus x session w with
    | mk r w1 =>
      simp only [detailResults, hg, List.all_cons, Bool.and_eq_true] at hp
      cases r with
      | panic => simp [isPanic] at hp
      | done res =>
        cases res with
        | error e =>
          simp only [listLoop, detailResults, hg, fetchedItems]
          exact ih w1 out hp.2
        | ok item =>
          simp only [listLoop, detailResults, hg, fetchedItems, List.filter_cons]
          by_cases hk : pattern <:+: item.Label
          · have hk' : ¬ (pattern ≠ [] ∧ stringsContains item.Label pattern = false) :=
              (filter_keeps_iff pattern item.Label).2 hk
            rw [if_neg hk']
            have h := ih w1 (out ++ [printSimpleItem item]) hp.2
            simp only [hk, decide_True, if_true, List.map_cons]
            refine ⟨h.1, ?_⟩
            rw [h.2]
            simp
          · have hk' : pattern ≠ [] ∧ stringsContains item.Label pattern = false := by
              by_contra hc
              exact hk ((filter_keeps_iff pattern item.Label).1 hc)
            rw [if_pos hk']
            simp only [hk, decide_False]
            exact ih w1 out hp.2

/-- When every detail fetch delivers an item, the delivered items are those of the paths
asked, in order. -/
theorem fetchedItems_paths {σ : Type} (bus : Bus σ) (session : ObjectPath)
    (items : List ObjectPath) : ∀ w : Wire σ,
    (detailResults bus session items w).all isFetched = true →
    (fetchedItems (detailResults bus session items w)).map (fun item => item.Path) = items := by
  induction items with
  | nil => intro w _; simp [detailResults, fetchedItems]
  | cons x xs ih =>
    intro w hf
    simp only [detailResults, List.all_cons, Bool.and_eq_true] at hf
    cases hr : (getItemDetails bus x session w).1 with
    | panic => rw [hr] at hf; simp [isFetched] at hf
    | done res =>
      cases res with
      | error e => rw [hr] at hf; simp [isFetched] at hf
      | ok item =>
        simp only [detailResults, hr, fetchedItems, List.map_cons]
        rw [ih _ hf.2, getItemDetails_path bus x session w item hr]

theorem isFetched_not_isPanic (rs : List (Run (Except GoError SecretItem)))
    (h : rs.all isFetched = true) : rs.all (fun r => !isPanic r) = true := by
  rw [List.all_eq_true] at h ⊢
  intro r hr
  have := h r hr
  cases r with
  | panic => simp [isFetched] at this
  | done res => simp [isPanic]

/-- `ListSecrets` after a search that found references and a session that was opened:
it is the listing loop over unlocked followed by locked. -/
theorem ListSecrets_eq_listLoop {σ : Type} (bus : Bus σ) (pattern : Str) (w : Wire σ)
    (out : List Out) (unlocked locked : List ObjectPath) (d1 d2 : σ) (output : Value)
    (session : ObjectPath)
    (hs : bus.SearchItems w.daemon ⟨DBUS_SERVICE_NAME, DBUS_PATH_SECRETS⟩
        [(ATTR_APPLICATION, APPLICATION)] = (CallResult.stored (unlocked, locked), d1))
    (hne : unlocked ++ locked ≠ [])
    (ho : bus.OpenSession d1 ⟨DBUS_SERVICE_NAME, DBUS_PATH_SECRETS⟩ (ascii "plain")
        (Value.str []) = (CallResult.stored (output, session), d2)) :
    ListSecrets bus pattern w out =
      match listLoop bus pattern session (unlocked ++ locked)
          (listingWire w d2) out with
      | (Run.panic, w3, out3) => (Run.panic, w3, out3)
      | (Run.done _, w3, out3) => (Run.done none, w3, out3) := by
  cases hall : unlocked ++ locked with
  | nil => exact absurd hall hne
  | cons x xs =>
    simp only [ListSecrets, callSearchItems, hs, hall, callOpenSession, ho, List.append_assoc,
      List.singleton_append, listingWire]

/-- When the search finds no reference, `ListSecrets` prints the notice
`No secrets found.`, issues no further call and returns success. -/
theorem ListSecrets_none_found {σ : Type} (bus : Bus σ) (pattern : Str) (w : Wire σ)
    (out : List Out) (d1 : σ)
    (hs : bus.SearchItems w.daemon ⟨DBUS_SERVICE_NAME, DBUS_PATH_SECRETS⟩
        [(ATTR_APPLICATION, APPLICATION)] = (CallResult.stored ([], []), d1)) :
    ListSecrets bus pattern w out =
      (Run.done none,
        { daemon := d1,
          calls := w.calls ++
            [Request.SearchItems ⟨DBUS_SERVICE_NAME, DBUS_PATH_SECRETS⟩
              [(ATTR_APPLICATION, APPLICATION)]] },
        out ++ [Out.text (ascii "No secrets found.\n")]) := by
  simp [ListSecrets, callSearchItems, hs]

/-- C8: when the search finds references, the session is opened and every matched record's
details are fetched successfully, `ListSecrets(pattern)` returns success and prints one
row for exactly those records whose label contains the pattern as a contiguous run of
bytes, in search order (unlocked, then locked); with the empty pattern it prints a row for
every matched record. -/
theorem ListSecrets_filter {σ : Type} (bus : Bus σ) (pattern : Str) (w : Wire σ)
    (out : List Out) (unlocked locked : List ObjectPath) (d1 d2 : σ) (output : Value)
    (session : ObjectPath)
    (hs : bus.SearchItems w.daemon ⟨DBUS_SERVICE_NAME, DBUS_PATH_SECRETS⟩
        [(ATTR_APPLICATION, APPLICATION)] = (CallResult.stored (unlocked, locked), d1))
    (hne : unlocked ++ locked ≠ [])
    (ho : bus.OpenSession d1 ⟨DBUS_SERVICE_NAME, DBUS_PATH_SECRETS⟩ (ascii "plain")
        (Value.str []) = (CallResult.stored (output, session), d2))
    (hd : (detailResults bus session (unlocked ++ locked)
        (listingWire w d2)).all isFetched = true) :
    (ListSecrets bus pattern w out).1 = Run.done none ∧
    (fetchedItems (detailResults bus session (unlocked ++ locked)
        (listingWire w d2))).map (fun item => item.Path) = unlocked ++ locked ∧
    (ListSecrets bus pattern w out).2.2 =
      out ++ ((fetchedItems (detailResults bus session (unlocked ++ locked)
        (listingWire w d2))).filter
        (fun item => decide (pattern <:+: item.Label))).map
          printSimpleItem ∧
    (pattern = [] →
      (ListSecrets bus pattern w out).2.2 =
        out ++ (fetchedItems (detailResults bus session (unlocked ++ locked)
          (listingWire w d2))).map printSimpleItem) := by
  have hl := listLoop_spec bus pattern session (unlocked ++ locked) _ out
    (isFetched_not_isPanic _ hd)
  have he := ListSecrets_eq_listLoop bus pattern w out unlocked locked d1 d2 output session
    hs hne ho
  have hout : (ListSecrets bus pattern w out).1 = Run.done none ∧
      (ListSecrets bus pattern w out).2.2 = (listLoop bus pattern session (unlocked ++ locked)
        (listingWire w d2) out).2.2 := by
    rw [he]
    revert hl
    cases listLoop bus pattern session (unlocked ++ locked)
        (listingWire w d2) out with
    | mk r rest =>
      obtain ⟨w3, out3⟩ := rest
      rintro ⟨h1, -⟩
      simp only at h1
      subst h1
      simp
  refine ⟨hout.1, fetchedItems_paths bus session _ _ hd, ?_, ?_⟩
  · rw [hout.2, hl.2]
  · rintro rfl
    rw [hout.2, hl.2]
    congr 2
    apply List.filter_eq_self.2
    intro a _
    simp

/-- Witness of `ListSecrets_filter`: with records labelled `alpha`, `beta` and `alphabet`,
the pattern `alpha` lists exactly `alpha` and `alphabet`, and the empty pattern lists all
three. -/
theorem ListSecrets_filter_witness :
    daemonBus.SearchItems (start alphaBetaAlphabet).wire.daemon
        ⟨DBUS_SERVICE_NAME, DBUS_PATH_SECRETS⟩ [(ATTR_APPLICATION, APPLICATION)] =
      (CallResult.stored ([itemPath 0, itemPath 1, itemPath 2], []), alphaBetaAlphabet) ∧
    [itemPath 0, itemPath 1, itemPath 2] ++ [] ≠ [] ∧
    daemonBus.OpenSession alphaBetaAlphabet ⟨DBUS_SERVICE_NAME, DBUS_PATH_SECRETS⟩
        (ascii "plain") (Value.str []) =
      (CallResult.stored (Value.str [], sessionPathOf 0),
        { alphaBetaAlphabet with sessions := 1 }) ∧
    (detailResults daemonBus (sessionPathOf 0) ([itemPath 0, itemPath 1, itemPath 2] ++ [])
      (listingWire (start alphaBetaAlphabet).wire
        { alphaBetaAlphabet with sessions := 1 })).all isFetched = true ∧
    (ListSecrets daemonBus (ascii "alpha") (start alphaBetaAlphabet).wire []).1 =
      Run.done none ∧
    (ListSecrets daemonBus (ascii "alpha") (start alphaBetaAlphabet).wire []).2.2 =
      [Out.row (ascii "alpha") 0, Out.row (ascii "alphabet") 0] ∧
    (ListSecrets daemonBus [] (start alphaBetaAlphabet).wire []).2.2 =
      [Out.row (ascii "alpha") 0, Out.row (ascii "beta") 0, Out.row (ascii "alphabet") 0] :=
  ⟨by decide, by decide, by decide, by decide,
    (ListSecrets_filter daemonBus (ascii "alpha") (start alphaBetaAlphabet).wire []
      [itemPath 0, itemPath 1, itemPath 2] [] alphaBetaAlphabet
      { alphaBetaAlphabet with sessions := 1 } (Value.str []) (sessionPathOf 0)
      (by decide) (by decide) (by decide) (by decide)).1,
    by decide, by decide⟩

/-- C9, as stated, fails: the daemon holds one locked record; the get-secret call of its
detail fetch fails, and `ListSecrets` prints a row for the record all the same. -/
theorem locked_record_is_listed :
    (daemonBus.GetSecret { lockedOnly with sessions := 1 }
        ⟨DBUS_SERVICE_NAME, itemPath 0⟩ (sessionPathOf 0)).1 = CallResult.failed IS_LOCKED ∧
    ListSecrets daemonBus [] (start lockedOnly).wire [] =
      (Run.done none,
        { daemon := { lockedOnly with sessions := 1 },
          calls :=
            [Request.SearchItems ⟨DBUS_SERVICE_NAME, DBUS_PATH_SECRETS⟩
                [(ATTR_APPLICATION, APPLICATION)],
              Request.OpenSession ⟨DBUS_SERVICE_NAME, DBUS_PATH_SECRETS⟩ (ascii "plain")
                (Value.str []),
              Request.GetProperty ⟨DBUS_SERVICE_NAME, itemPath 0⟩ PROP_LABEL,
              Request.GetProperty ⟨DBUS_SERVICE_NAME, itemPath 0⟩ PROP_ATTRIBUTES,
              Request.GetProperty ⟨DBUS_SERVICE_NAME, itemPath 0⟩ PROP_CREATED,
              Request.GetProperty ⟨DBUS_SERVICE_NAME, itemPath 0⟩ PROP_MODIFIED,
              Request.GetSecret ⟨DBUS_SERVICE_NAME, itemPath 0⟩ (sessionPathOf 0)] },
        [Out.row (ascii "k") 0]) :=
  ⟨by decide, by rfl⟩

/-- C9 (amended): when the search finds references, the session is opened and no property
read delivers a value of an unexpected type, `ListSecrets` returns success and prints one
row for each record whose detail fetch delivered an item and whose label the filter keeps,
going through all the references: a record whose detail fetch fails gets no row and does
not stop the listing.  A detail fetch fails exactly when one of its four property reads
(`Label`, `Attributes`, `Created`, `Modified`) fails, and delivers an item exactly when
all four succeed; the get-secret call has no part in it, so a record whose secret cannot
be fetched is listed all the same. -/
theorem ListSecrets_best_effort {σ : Type} (bus : Bus σ) (pattern : Str) (w : Wire σ)
    (out : List Out) (unlocked locked : List ObjectPath) (d1 d2 : σ) (output : Value)
    (session : ObjectPath)
    (hs : bus.SearchItems w.daemon ⟨DBUS_SERVICE_NAME, DBUS_PATH_SECRETS⟩
        [(ATTR_APPLICATION, APPLICATION)] = (CallResult.stored (unlocked, locked), d1))
    (hne : unlocked ++ locked ≠ [])
    (ho : bus.OpenSession d1 ⟨DBUS_SERVICE_NAME, DBUS_PATH_SECRETS⟩ (ascii "plain")
        (Value.str []) = (CallResult.stored (output, session), d2))
    (hp : (detailResults bus session (unlocked ++ locked) (listingWire w d2)).all
        (fun r => !isPanic r) = true) :
    (ListSecrets bus pattern w out).1 = Run.done none ∧
    (ListSecrets bus pattern w out).2.2 =
      out ++ ((fetchedItems (detailResults bus session (unlocked ++ locked)
        (listingWire w d2))).filter
          (fun item => decide (pattern <:+: item.Label))).map printSimpleItem ∧
    (∀ (path : ObjectPath) (w1 : Wire σ),
      (∀ err, (getItemDetails bus path session w1).1 = Run.done (Except.error err) ↔
        ((readLabel bus path w1.daemon).1 = Except.error err ∨
          ((∃ l, (readLabel bus path w1.daemon).1 = Except.ok (Value.str l)) ∧
            ((readAttributes bus path w1.daemon).1 = Except.error err ∨
              ((∃ a, (readAttributes bus path w1.daemon).1 = Except.ok (Value.dict a)) ∧
                ((readCreated bus path w1.daemon).1 = Except.error err ∨
                  ((∃ c, (readCreated bus path w1.daemon).1 = Except.ok (Value.u64 c)) ∧
                    (readModified bus path w1.daemon).1 = Except.error err))))))) ∧
      ((∃ item, (getItemDetails bus path session w1).1 = Run.done (Except.ok item)) ↔
        ∃ l a c m,
          (readLabel bus path w1.daemon).1 = Except.ok (Value.str l) ∧
          (readAttributes bus path w1.daemon).1 = Except.ok (Value.dict a) ∧
          (readCreated bus path w1.daemon).1 = Except.ok (Value.u64 c) ∧
          (readModified bus path w1.daemon).1 = Except.ok (Value.u64 m))) := by
  have hl := listLoop_spec bus pattern session (unlocked ++ locked) _ out hp
  have he := ListSecrets_eq_listLoop bus pattern w out unlocked locked d1 d2 output session
    hs hne ho
  have hout : (ListSecrets bus pattern w out).1 = Run.done none ∧
      (ListSecrets bus pattern w out).2.2 = (listLoop bus pattern session (unlocked ++ locked)
        (listingWire w d2) out).2.2 := by
    rw [he]
    revert hl
    cases listLoop bus pattern session (unlocked ++ locked) (listingWire w d2) out with
    | mk r rest =>
      obtain ⟨w3, out3⟩ := rest
      rintro ⟨h1, -⟩
      simp only at h1
      subst h1
      simp
  refine ⟨hout.1, ?_, fun path w1 => getItemDetails_outcome bus path session w1⟩
  rw [hout.2, hl.2]

/-- Witness of `ListSecrets_best_effort`: records labelled `alpha`, `beta` and `alphabet`
behind a bus on which the read of `Created` fails for `beta`; `alpha` and `alphabet` are
listed, `beta` is not, and the listing succeeds. -/
theorem ListSecrets_best_effort_witness :
    flakyBus.SearchItems (start alphaBetaAlphabet).wire.daemon
        ⟨DBUS_SERVICE_NAME, DBUS_PATH_SECRETS⟩ [(ATTR_APPLICATION, APPLICATION)] =
      (CallResult.stored ([itemPath 0, itemPath 1, itemPath 2], []), alphaBetaAlphabet) ∧
    [itemPath 0, itemPath 1, itemPath 2] ++ [] ≠ [] ∧
    flakyBus.OpenSession alphaBetaAlphabet ⟨DBUS_SERVICE_NAME, DBUS_PATH_SECRETS⟩
        (ascii "plain") (Value.str []) =
      (CallResult.stored (Value.str [], sessionPathOf 0),
        { alphaBetaAlphabet with sessions := 1 }) ∧
    (detailResults flakyBus (sessionPathOf 0) ([itemPath 0, itemPath 1, itemPath 2] ++ [])
      (listingWire (start alphaBetaAlphabet).wire
        { alphaBetaAlphabet with sessions := 1 })).all (fun r => !isPanic r) = true ∧
    (getItemDetails flakyBus (itemPath 1) (sessionPathOf 0)
      (listingWire (start alphaBetaAlphabet).wire
        { alphaBetaAlphabet with sessions := 1 })).1 =
      Run.done (Except.error (ascii "org.freedesktop.DBus.Error.NoReply")) ∧
    (ListSecrets flakyBus [] (start alphaBetaAlphabet).wire []).1 = Run.done none ∧
    (ListSecrets flakyBus [] (start alphaBetaAlphabet).wire []).2.2 =
      [Out.row (ascii "alpha") 0, Out.row (ascii "alphabet") 0] :=
  ⟨by decide, by decide, by decide, by decide, by decide,
    (ListSecrets_best_effort flakyBus [] (start alphaBetaAlphabet).wire []
      [itemPath 0, itemPath 1, itemPath 2] [] alphaBetaAlphabet
      { alphaBetaAlphabet with sessions := 1 } (Value.str []) (sessionPathOf 0)
      (by decide) (by decide) (by decide) (by decide)).1,
    by decide⟩

/-! ## Round trip through the client against the daemon model -/

theorem slotOf_itemPath (i : Nat) : slotOf (itemPath i) = some i := by
  simp [slotOf, itemPath]

/-- The attributes this tool stores for a key include the attributes it searches by. -/
theorem includesAttrs_own (key : Str) :
    includesAttrs [(ATTR_KEY, key), (ATTR_APPLICATION, APPLICATION)]
      [(ATTR_KEY, key), (ATTR_APPLICATION, APPLICATION)] = true := by
  have hne : ATTR_KEY ≠ ATTR_APPLICATION := by decide
  simp [includesAttrs, lookupAttr, hne]

/-- After an item is stored with the replace flag under attributes that include themselves,
a search for these attributes from slot number `i` on finds an unlocked item first in the
unlocked list, and that item holds the stored secret. -/
theorem search_after_replace (label : Str) (attributes : List (Str × Str)) (secret : Str)
    (now : Nat) (hself : includesAttrs attributes attributes = true)
    (slots : List (Option StoredItem)) : ∀ i : Nat,
    ∃ (j : Nat) (rest : List ObjectPath) (item : StoredItem),
      (searchSlots attributes i (replaceItem label attributes secret now slots)).1 =
        itemPath (i + j) :: rest ∧
      slotAt (replaceItem label attributes secret now slots) j = some item ∧
      item.secret = secret ∧ item.locked = false := by
  induction slots with
  | nil =>
    intro i
    exact ⟨0, [],
      { label := label, attributes := attributes, secret := secret, locked := false,
        created := now, modified := now },
      by simp [replaceItem, searchSlots, hself], by simp [replaceItem, slotAt], rfl, rfl⟩
  | cons s rest ih =>
    intro i
    cases s with
    | none =>
      obtain ⟨j, r, item, h1, h2, h3, h4⟩ := ih (i + 1)
      refine ⟨j + 1, r, item, ?_, ?_, h3, h4⟩
      · simp only [replaceItem, searchSlots]
        rw [h1, show i + (j + 1) = i + 1 + j by omega]
      · simpa [replaceItem, slotAt] using h2
    | some old =>
      by_cases hm : includesAttrs old.attributes attributes = true
      · exact ⟨0, (searchSlots attributes (i + 1) rest).1,
          { label := label, attributes := attributes, secret := secret, locked := false,
            created := old.created, modified := now },
          by simp [replaceItem, searchSlots, hm, hself], by simp [replaceItem, hm, slotAt], rfl, rfl⟩
      · obtain ⟨j, r, item, h1, h2, h3, h4⟩ := ih (i + 1)
        have hm' : includesAttrs old.attributes attributes = false := by simpa using hm
        refine ⟨j + 1, r, item, ?_, ?_, h3, h4⟩
        · simp only [replaceItem, searchSlots, hm', Bool.false_eq_true, if_false]
          rw [h1, show i + (j + 1) = i + 1 + j by omega]
        · simpa [replaceItem, hm, slotAt] using h2

/-- Samples of the UTF-8 check: a lone 0xFF, an over-long form, a surrogate, a code point
above U+10FFFF and a truncated sequence are refused; two-, three- and four-byte code
points are accepted; a zero byte is refused by the check on strings. -/
theorem validUTF8_samples :
    validUTF8 [255] = false ∧ validUTF8 [0xC0, 0x80] = false ∧
    validUTF8 [0xE0, 0x80, 0x80] = false ∧ validUTF8 [0xED, 0xA0, 0x80] = false ∧
    validUTF8 [0xF4, 0x90, 0x80, 0x80] = false ∧ validUTF8 [0xE2, 0x82] = false ∧
    validUTF8 [0xC3, 0xA9] = true ∧ validUTF8 [0xEF, 0xBF, 0xBD] = true ∧
    validUTF8 [0xF0, 0x9F, 0x98, 0x80] = true ∧
    wireError [107, 0] = some WIRE_NULL_CHAR ∧ wireError (ascii "k") = none := by
  decide

/-- The check on the strings of the open-session call of the client passes. -/
theorem wireErrors_openSession :
    wireErrors (ascii "plain" :: valueStrings (Value.str [])) = none := by
  decide

/-- The check on the strings of the search call for a key passes exactly when the key
passes it. -/
theorem wireErrors_search (k : Str) :
    wireErrors (attrStrings [(ATTR_KEY, k), (ATTR_APPLICATION, APPLICATION)]) = wireError k := by
  have h1 : wireError ATTR_KEY = none := by decide
  have h2 : wireError ATTR_APPLICATION = none := by decide
  have h3 : wireError APPLICATION = none := by decide
  simp only [attrStrings, wireErrors, h1, h2, h3]
  cases wireError k <;> rfl

/-- The check on the strings of the create-item call for a key passes exactly when the key
passes it: the secret value is not a string and is not checked. -/
theorem wireErrors_createItem (k : Str) :
    wireErrors (propStrings [(PROP_LABEL, Value.str k),
        (PROP_ATTRIBUTES, Value.dict [(ATTR_KEY, k), (ATTR_APPLICATION, APPLICATION)])] ++
      [ascii "text/plain"]) = wireError k := by
  have h1 : wireError ATTR_KEY = none := by decide
  have h2 : wireError ATTR_APPLICATION = none := by decide
  have h3 : wireError APPLICATION = none := by decide
  have h4 : wireError PROP_LABEL = none := by decide
  have h5 : wireError PROP_ATTRIBUTES = none := by decide
  have h6 : wireError (ascii "text/plain") = none := by decide
  simp only [propStrings, valueStrings, attrStrings, List.cons_append, List.nil_append,
    List.append_nil, wireErrors, h1, h2, h3, h4, h5, h6]
  cases wireError k <;> rfl

/-- Against the daemon model `SetSecret(k, v)` succeeds exactly when the key passes the
check of the bus library on strings, whatever the value. -/
theorem SetSecret_succeeds_iff (w : Wire Daemon) (k v : Str) :
    (SetSecret daemonBus k v w).1 = none ↔ wireError k = none := by
  have ho := wireErrors_openSession
  have hc := wireErrors_createItem k
  cases hk : wireError k with
  | none =>
    rw [hk] at hc
    simp [SetSecret, callOpenSession, callCreateItem, daemonBus, ho, hc]
  | some e =>
    rw [hk] at hc
    simp [SetSecret, callOpenSession, callCreateItem, daemonBus, ho, hc]

/-- A key that is not valid UTF-8 is refused: the create-item call of `SetSecret` fails
with the wire format error of the bus library, and nothing is stored. -/
theorem SetSecret_refuses_invalid_key :
    SetSecret daemonBus [255] [118] (start emptyDaemon).wire =
      (some (ascii "failed to store secret: " ++ WIRE_NOT_UTF8),
        { daemon := { emptyDaemon with sessions := 1 },
          calls := (SetSecret daemonBus [255] [118] (start emptyDaemon).wire).2.calls }) ∧
    (GetSecret daemonBus [255] (start emptyDaemon).wire).1 =
      Except.error (ascii "failed to search items: " ++ WIRE_NOT_UTF8) := by
  constructor
  · rfl
  · decide

/-- C1: against the daemon model, in any state of the daemon, for every key `k` and every
value `v` (any byte string, the empty one and ones with newlines included): after
`SetSecret(k, v)` has succeeded, `GetSecret(k)` returns exactly `v` with no error. -/
theorem SetSecret_GetSecret_roundtrip (w : Wire Daemon) (k v : Str)
    (hset : (SetSecret daemonBus k v w).1 = none) :
    (GetSecret daemonBus k (SetSecret daemonBus k v w).2).1 = Except.ok v := by
  have hk : wireError k = none := (SetSecret_succeeds_iff w k v).1 hset
  have ho := wireErrors_openSession
  have hc := wireErrors_createItem k
  have hs := wireErrors_search k
  rw [hk] at hc hs
  obtain ⟨j, rest, item, h1, h2, h3, h4⟩ :=
    search_after_replace k [(ATTR_KEY, k), (ATTR_APPLICATION, APPLICATION)] v w.daemon.clock
      (includesAttrs_own k) w.daemon.slots 0
  have hl : PROP_LABEL ≠ PROP_ATTRIBUTES := by decide
  have hstate : (SetSecret daemonBus k v w).2.daemon =
      { slots := replaceItem k [(ATTR_KEY, k), (ATTR_APPLICATION, APPLICATION)] v
          w.daemon.clock w.daemon.slots,
        sessions := w.daemon.sessions + 1, clock := w.daemon.clock } := by
    simp [SetSecret, callOpenSession, callCreateItem, daemonBus, createItem, propStr, propDict,
      hl, hl.symm, ho, hc]
  rw [Nat.zero_add] at h1
  generalize (SetSecret daemonBus k v w).2 = w2 at hstate
  obtain ⟨d2, calls2⟩ := w2
  simp only at hstate
  subst hstate
  simp only [GetSecret, callSearchItems, daemonBus, hs]
  cases hsearch : searchSlots [(ATTR_KEY, k), (ATTR_APPLICATION, APPLICATION)] 0
      (replaceItem k [(ATTR_KEY, k), (ATTR_APPLICATION, APPLICATION)] v w.daemon.clock
        w.daemon.slots) with
  | mk unlocked locked =>
    rw [hsearch] at h1
    simp only at h1
    subst h1
    simp [fetchSecret, callOpenSession, callGetSecret, itemAt, slotOf_itemPath, h2, h4, h3,
      secretData, ho]

/-- Witness of `SetSecret_GetSecret_roundtrip`: the key `k` with the two-line value
`"a\nb"`, stored over an older value, and the key `k` with the empty value. -/
theorem SetSecret_GetSecret_roundtrip_witness :
    (SetSecret daemonBus (ascii "k") [97, 10, 98]
      (start (daemonWith [ownItem (ascii "k") [120] false])).wire).1 = none ∧
    (GetSecret daemonBus (ascii "k")
      (SetSecret daemonBus (ascii "k") [97, 10, 98]
        (start (daemonWith [ownItem (ascii "k") [120] false])).wire).2).1 =
      Except.ok [97, 10, 98] ∧
    (GetSecret daemonBus (ascii "k")
      (SetSecret daemonBus (ascii "k") [] (start emptyDaemon).wire).2).1 = Except.ok [] :=
  ⟨by decide,
    SetSecret_GetSecret_roundtrip (start (daemonWith [ownItem (ascii "k") [120] false])).wire
      (ascii "k") [97, 10, 98] (by decide),
    SetSecret_GetSecret_roundtrip (start emptyDaemon).wire (ascii "k") [] (by decide)⟩


/-- When the get-secret call of a detail fetch fails, the secret of the item is left
empty. -/
theorem detailSecret_of_failure {σ : Type} (bus : Bus σ) (obj : BusObject)
    (session : ObjectPath) (w : Wire σ) (err : GoError)
    (h : (bus.GetSecret w.daemon obj session).1 = CallResult.failed err) :
    (detailSecret bus obj session w).1 = [] := by
  simp [detailSecret, callGetSecret, h]

end Gosecret
